import Mathlib

/-!
# Verification of the PdfCreator document-assembly engine

Shallow embedding of `packages/pdf-creator/src/PdfCreator.ts`.

Modelling conventions:
* JavaScript strings are modelled as `List Char`; the helper `S` converts a
  Lean string literal to its character list.  The final byte conversion
  (`charCodeAt(i) & 0xff`) is `charByte`.
* JavaScript numbers used for coordinates, sizes and heights are modelled as
  exact rationals (`ℚ`).  Rendering a number into a content stream goes
  through `Q`; the precise decimal rendering of the host is irrelevant to the
  properties proved here, which never depend on the digit string of a
  rational.
* The mutable `PdfCreator` object is the record `Doc`; every method becomes a
  state-passing function.
* The host-environment image pipeline (`fetch`, `FileReader`, canvas
  re-encoding inside `processImage`) is modelled by an oracle parameter
  `List Char → Except Unit (List Char)`: `.ok` is the processed data URL,
  `.error` a rejected fetch/decode.  `atob` (a host builtin) is modelled by
  `atobModel`, a standard base64 decoder.
* The `onHeader`/`onFooter` callbacks are host-supplied arbitrary code; the
  model covers the engine's own (default-configuration) header/footer path.
-/

namespace PdfSpec

/-- Convert a Lean string literal to the character-list model of a JS string. -/
def S (s : String) : List Char := s.data

/-- Decimal rendering of a natural number (JS `${n}` for integral numbers). -/
def N (n : Nat) : List Char := (Nat.repr n).data

/-- Decimal rendering of an integer (JS `${n}` for integral numbers). -/
def Z (z : Int) : List Char := if z < 0 then S "-" ++ N z.natAbs else N z.natAbs

/-- Rendering of a rational coordinate into the content stream.  The host
renders an IEEE double; no property proved here depends on the digit string,
so a canonical exact rendering is used. -/
def Q (q : ℚ) : List Char := if q.den = 1 then Z q.num else Z q.num ++ S "/" ++ N q.den

/-- Source `charCodeAt(i) & 0xff`: the byte written for one character of the final
buffer (`buildPdf`, string-to-bytes conversion). -/
def charByte (c : Char) : Nat := c.toNat % 256

/-- In-place update of the element at index `i` (mutation of `pages[i]`). -/
def updateAt {α : Type} : List α → Nat → (α → α) → List α
  | [], _, _ => []
  | a :: as, 0, f => f a :: as
  | a :: as, n + 1, f => a :: updateAt as n f

/-- JS `Set.add`: append if absent (JS sets iterate in insertion order). -/
def insertIfAbsent (l : List (List Char)) (x : List Char) : List (List Char) :=
  if x ∈ l then l else l ++ [x]

/-- JS `Map.get` over an insertion-ordered association list. -/
def lookupAssoc {β : Type} (l : List (List Char × β)) (k : List Char) : Option β :=
  (l.find? (fun kv => kv.1 == k)).map (fun kv => kv.2)

/-- JS `Array.join(sep)`. -/
def joinSep (sep : List Char) : List (List Char) → List Char
  | [] => []
  | [x] => x
  | x :: xs => x ++ sep ++ joinSep sep xs

/-- Boolean prefix test on lists (used for character and byte lists). -/
def isLead {α : Type} [BEq α] : List α → List α → Bool
  | [], _ => true
  | _ :: _, [] => false
  | x :: xs, y :: ys => x == y && isLead xs ys

/-! ## Data model (`TextOptions`, `ImageOptions`, configs, `Page`, `Doc`) -/

/-- Source `style?: 'normal' | 'bold' | 'italic' | 'bolditalic'`. -/
inductive Style where
  | normal | bold | italic | bolditalic
deriving DecidableEq, Repr

/-- Lower-case rendering of a `Style` (the TS string literal itself). -/
def styleStr : Style → List Char
  | .normal => S "normal"
  | .bold => S "bold"
  | .italic => S "italic"
  | .bolditalic => S "bolditalic"

/-- Source `align?: 'left' | 'center' | 'right'`. -/
inductive Align where
  | left | center | right
deriving DecidableEq, Repr

/-- Source `TextOptions` (all fields optional in TS). -/
structure TextOptions where
  size : Option ℚ := none
  font : Option (List Char) := none
  style : Option Style := none
  color : Option (List Char) := none
  align : Option Align := none
deriving DecidableEq

/-- Source `ImageOptions`. -/
structure ImageOptions where
  width : ℚ
  height : ℚ
  format : Option (List Char) := none
deriving DecidableEq

/-- Source `DefaultHeaderConfig`. -/
structure DefaultHeaderConfig where
  text : Option (List Char) := none
  align : Option Align := none
  color : Option (List Char) := none
deriving DecidableEq

/-- Source `DefaultFooterConfig`. -/
structure DefaultFooterConfig where
  text : Option (List Char) := none
  showPageNumbers : Option Bool := none
  align : Option Align := none
  color : Option (List Char) := none
deriving DecidableEq

/-- Source `PdfConfig`.  The `onHeader`/`onFooter` callbacks are host-supplied
arbitrary code and are outside the embedding; the engine's own header/footer
behaviour (the `defaultHeader`/`defaultFooter` path) is modelled. -/
structure PdfConfig where
  headerHeight : Option ℚ := none
  footerHeight : Option ℚ := none
  defaultHeader : Option DefaultHeaderConfig := none
  defaultFooter : Option DefaultFooterConfig := none
deriving DecidableEq

/-- Per-page resource name sets (`resources.fonts`, `resources.images`),
insertion-ordered as JS `Set`s are. -/
structure PageResources where
  fonts : List (List Char)
  images : List (List Char)
deriving DecidableEq

/-- Source `Page`. -/
structure Page where
  id : Nat
  contentId : Nat
  content : List (List Char)
  resources : PageResources
deriving DecidableEq

/-- An entry of the `images` map. -/
structure ImageRec where
  id : Nat
  width : ℚ
  height : ℚ
  data : List Char
deriving DecidableEq

/-- The `PdfCreator` instance state.  The `fonts` map of the source
(`FontKey -> ObjectId`) is declared but never written or read; it is carried
here for fidelity. -/
structure Doc where
  config : PdfConfig
  pages : List Page
  currentPageIndex : Nat
  objectCounter : Nat
  images : List (List Char × ImageRec)
  fonts : List (List Char × Nat)
  headerHeight : ℚ
  footerHeight : ℚ
  isApplyingHeaderFooter : Bool
deriving DecidableEq

/-- Constant `PAGE_WIDTH = 595.28`. -/
def pageWidth : ℚ := 595.28

/-- Constant `PAGE_HEIGHT = 841.89`. -/
def pageHeight : ℚ := 841.89

/-- Constants `MAX_HEADER_HEIGHT = 200` and `MAX_FOOTER_HEIGHT = 200`. -/
def maxBandHeight : ℚ := 200

/-- A fresh page as `addPage` constructs it, given the two allocated ids. -/
def freshPage (pageId contentId : Nat) : Page :=
  { id := pageId, contentId := contentId, content := [], resources := { fonts := [], images := [] } }

/-- Source `addPage()`: allocates a structural id and a content id, appends the new
page, and makes it current. -/
def addPage (d : Doc) : Doc :=
  let pageId := d.objectCounter
  let contentId := d.objectCounter + 1
  { d with
    objectCounter := d.objectCounter + 2,
    pages := d.pages ++ [freshPage pageId contentId],
    currentPageIndex := d.pages.length }

/-- The constructor: clamps the reserved heights (`Math.min(h || 0, 200)`)
and starts with one implicit page. -/
def newDoc (config : PdfConfig) : Doc :=
  addPage
    { config := config
      pages := []
      currentPageIndex := 0
      objectCounter := 1
      images := []
      fonts := []
      headerHeight := min (config.headerHeight.getD 0) maxBandHeight
      footerHeight := min (config.footerHeight.getD 0) maxBandHeight
      isApplyingHeaderFooter := false }

/-- Source `setPage(index)`: redirect the current-page cursor, ignoring an
out-of-range index. -/
def setPage (d : Doc) (i : Nat) : Doc :=
  if i < d.pages.length then { d with currentPageIndex := i } else d

/-! ## Colors (`hexToRgb`) -/

/-- A decoded color, each channel a rational in the model. -/
structure Rgb where
  r : ℚ
  g : ℚ
  b : ℚ
deriving DecidableEq

/-- Class `[a-f\d]` with the `i` flag: a hexadecimal digit of either case
(by code point: `0`–`9`, `a`–`f`, `A`–`F`). -/
def isHexDigit (c : Char) : Bool :=
  (48 ≤ c.toNat && c.toNat ≤ 57) || (97 ≤ c.toNat && c.toNat ≤ 102) ||
  (65 ≤ c.toNat && c.toNat ≤ 70)

/-- Numeric value of a hexadecimal digit. -/
def hexVal (c : Char) : Nat :=
  if 48 ≤ c.toNat ∧ c.toNat ≤ 57 then c.toNat - 48
  else if 97 ≤ c.toNat ∧ c.toNat ≤ 102 then c.toNat - 87
  else c.toNat - 55

/-- The body matched after the optional `#` of
`/^#?([a-f\d]{2})([a-f\d]{2})([a-f\d]{2})$/i`. -/
def hexBody (s : List Char) : List Char :=
  match s with
  | c :: rest => if c = '#' then rest else c :: rest
  | [] => []

/-- The three capture groups of the source regex, as byte values, when the
whole string matches. -/
def hexCaptures (s : List Char) : Option (Nat × Nat × Nat) :=
  match hexBody s with
  | [c1, c2, c3, c4, c5, c6] =>
    if isHexDigit c1 && isHexDigit c2 && isHexDigit c3 && isHexDigit c4 &&
        isHexDigit c5 && isHexDigit c6 then
      some (hexVal c1 * 16 + hexVal c2, hexVal c3 * 16 + hexVal c4, hexVal c5 * 16 + hexVal c6)
    else none
  | _ => none

/-- Source `hexToRgb`: decode the regex captures to `component/255`, or black when
the regex does not match. -/
def hexToRgb (hex : List Char) : Rgb :=
  match hexCaptures hex with
  | some (r, g, b) => { r := (r : ℚ) / 255, g := (g : ℚ) / 255, b := (b : ℚ) / 255 }
  | none => { r := 0, g := 0, b := 0 }

/-! ## Fonts -/

/-- The `standardFonts` record, in insertion order. -/
def standardFonts : List (List Char × List Char) :=
  [ (S "helvetica", S "Helvetica")
  , (S "helvetica-bold", S "Helvetica-Bold")
  , (S "helvetica-italic", S "Helvetica-Oblique")
  , (S "helvetica-bolditalic", S "Helvetica-BoldOblique")
  , (S "times", S "Times-Roman")
  , (S "times-bold", S "Times-Bold")
  , (S "times-italic", S "Times-Italic")
  , (S "times-bolditalic", S "Times-BoldItalic")
  , (S "courier", S "Courier")
  , (S "courier-bold", S "Courier-Bold")
  , (S "courier-italic", S "Courier-Oblique")
  , (S "courier-bolditalic", S "Courier-BoldOblique") ]

/-- The font key: lower-cased family, a dash, the lower-cased style, with a
trailing `-normal` stripped.  Since `style` ranges over the four literal
style strings, stripping that suffix is exactly: drop the dash-and-style part
when the style is `normal`. -/
def mkFontKey (font : List Char) (style : Style) : List Char :=
  match style with
  | .normal => font.map Char.toLower
  | st => font.map Char.toLower ++ S "-" ++ styleStr st

/-- Expression `Object.keys(this.standardFonts).indexOf(fontKey)`: `-1` when absent. -/
def fontKeyIndex (key : List Char) : Int :=
  match standardFonts.findIdx? (fun kv => kv.1 == key) with
  | some i => (i : Int)
  | none => -1

/-- Template `` `F${Object.keys(this.standardFonts).indexOf(fontKey) + 1}` ``. -/
def fontResourceNameFor (font : List Char) (style : Style) : List Char :=
  S "F" ++ Z (fontKeyIndex (mkFontKey font style) + 1)

/-- Expression `this.standardFonts[fontKey] || 'Helvetica'` (line 181): the resolved
standard font name.  (In the source this value is computed but never used
afterwards.) -/
def resolvedPdfFontName (font : List Char) (style : Style) : List Char :=
  (lookupAssoc standardFonts (mkFontKey font style)).getD (S "Helvetica")

/-! ## Text placement (`escapeText`, `addText`) -/

/-- Source `escapeText`: escape backslashes first, then parentheses; the sequential
replaces amount to this single per-character expansion. -/
def escapeText (text : List Char) : List Char :=
  text.flatMap (fun c =>
    if c = '\\' then ['\\', '\\']
    else if c = '(' then ['\\', '(']
    else if c = ')' then ['\\', ')']
    else [c])

/-- The rough alignment correction applied to the X coordinate. -/
def alignAdjust (x : ℚ) (align : Align) (len : Nat) (size : ℚ) : ℚ :=
  match align with
  | .left => x
  | .center => x - (len : ℚ) * size * 0.3
  | .right => x - (len : ℚ) * size * 0.6

/-- The content-stream fragment pushed by `addText`. -/
def textFragment (resName : List Char) (size : ℚ) (rgb : Rgb) (xOffset pdfY : ℚ)
    (text : List Char) : List Char :=
  S "BT\n" ++ S "/" ++ resName ++ S " " ++ Q size ++ S " Tf\n" ++
  Q rgb.r ++ S " " ++ Q rgb.g ++ S " " ++ Q rgb.b ++ S " rg\n" ++
  Q xOffset ++ S " " ++ Q pdfY ++ S " Td\n" ++
  S "(" ++ escapeText text ++ S ") Tj\n" ++ S "ET\n"

/-- The mutation `addText` performs on the current page: register the font
resource name and push the text fragment. -/
def textPageUpd (text : List Char) (x y : ℚ) (opts : TextOptions) (p : Page) : Page :=
  let size := opts.size.getD 12
  let font := opts.font.getD (S "helvetica")
  let style := opts.style.getD Style.normal
  let color := opts.color.getD (S "#000000")
  let align := opts.align.getD Align.left
  let pdfY := pageHeight - y
  let resName := fontResourceNameFor font style
  let rgb := hexToRgb color
  let xOffset := alignAdjust x align text.length size
  { p with
    resources := { p.resources with fonts := insertIfAbsent p.resources.fonts resName },
    content := p.content ++ [textFragment resName size rgb xOffset pdfY text] }

/-- Source `addText`: the pagination-overflow check followed by placement on the
current page; returns the Y coordinate actually used. -/
def addText (d : Doc) (text : List Char) (x y : ℚ) (opts : TextOptions) : Doc × ℚ :=
  let size := opts.size.getD 12
  let needNew := d.isApplyingHeaderFooter = false ∧ y + size > pageHeight - d.footerHeight
  let d1 := if needNew then addPage d else d
  let y1 := if needNew then d.headerHeight + 20 else y
  ({ d1 with pages := updateAt d1.pages d1.currentPageIndex (textPageUpd text x y1 opts) }, y1)

/-! ## Image ingestion (`processImage`, `addImage`)

`processImage` is host-environment code (network fetch, `FileReader`, canvas
re-encoding); the model abstracts it as an oracle
`List Char → Except Unit (List Char)` returning the processed data URL or a
rejection.  `addImage` is otherwise translated from the source. -/

/-- Class `\w`: a word character. -/
def isWordChar (c : Char) : Bool :=
  ('a' ≤ c && c ≤ 'z') || ('A' ≤ c && c ≤ 'Z') || ('0' ≤ c && c ≤ '9') || c == '_'

/-- Expression `processedData.replace(/^data:image\/\w+;base64,/, "")`. -/
def stripDataUrlPrefix (s : List Char) : List Char :=
  if isLead (S "data:image/") s then
    let rest := s.drop 11
    let w := rest.takeWhile isWordChar
    let rest2 := rest.drop w.length
    if w ≠ [] && isLead (S ";base64,") rest2 then rest2.drop 8 else s
  else s

/-- The content-stream fragment pushed by `addImage`
(`q w 0 0 h x y cm /Name Do Q`). -/
def imageFragment (width height x pdfY : ℚ) (imageKey : List Char) : List Char :=
  S "q " ++ Q width ++ S " 0 0 " ++ Q height ++ S " " ++ Q x ++ S " " ++ Q pdfY ++
  S " cm /" ++ imageKey ++ S " Do Q\n"

/-- The mutation `addImage` performs on the current page. -/
def imagePageUpd (imageKey : List Char) (frag : List Char) (p : Page) : Page :=
  { p with
    resources := { p.resources with images := insertIfAbsent p.resources.images imageKey },
    content := p.content ++ [frag] }

/-- Source `addImage`: overflow check, awaited image processing, registry insertion,
resource registration and fragment emission.  The returned pair is the (still
mutated) document together with the settled outcome of the promise. -/
def addImage (d : Doc) (oracle : List Char → Except Unit (List Char))
    (imageData : List Char) (x y : ℚ) (opts : ImageOptions) : Doc × Except Unit ℚ :=
  let needNew := d.isApplyingHeaderFooter = false ∧ y + opts.height > pageHeight - d.footerHeight
  let d1 := if needNew then addPage d else d
  let y1 := if needNew then d.headerHeight + 20 else y
  match oracle imageData with
  | .error e => (d1, .error e)
  | .ok processedData =>
    let base64Data := stripDataUrlPrefix processedData
    let imageKey := S "I" ++ N (d1.images.length + 1)
    let d2 :=
      if (lookupAssoc d1.images imageKey).isNone then
        { d1 with
          images := d1.images ++
            [(imageKey, { id := d1.objectCounter, width := opts.width, height := opts.height,
                          data := base64Data })],
          objectCounter := d1.objectCounter + 1 }
      else d1
    let pdfY := pageHeight - y1 - opts.height
    let frag := imageFragment opts.width opts.height x pdfY imageKey
    ({ d2 with pages := updateAt d2.pages d2.currentPageIndex (imagePageUpd imageKey frag) }, .ok y1)

/-! ## Header/footer injection (`applyHeaderFooter`) -/

/-- The X coordinate derived from an alignment in the header/footer pass. -/
def bandX (align : Align) : ℚ :=
  if align = Align.center then pageWidth / 2
  else if align = Align.right then pageWidth - 20 else 20

/-- The footer text: the literal text, suffixed (or replaced) by the page
number when page-number display is on. -/
def footerTextFor (text : List Char) (showPageNumbers : Bool) (pageNum : Nat) : List Char :=
  if showPageNumbers then
    if text ≠ [] then text ++ S " - Page " ++ N pageNum else S "Page " ++ N pageNum
  else text

/-- One iteration of the `applyHeaderFooter` loop: switch to page `i`, then
run the default header and footer branches for page number `i + 1`. -/
def applyHFStep (d : Doc) (i : Nat) : Doc :=
  let d := setPage d i
  let pageNum := i + 1
  let d :=
    match d.config.defaultHeader with
    | some hc =>
      let text := hc.text.getD []
      let align := hc.align.getD Align.center
      let color := hc.color.getD (S "#000000")
      if text ≠ [] then
        (addText d text (bandX align) 20
          { size := some 10, align := some align, color := some color }).1
      else d
    | none => d
  match d.config.defaultFooter with
  | some fc =>
    let text := fc.text.getD []
    let showPageNumbers := fc.showPageNumbers.getD true
    let align := fc.align.getD Align.center
    let color := fc.color.getD (S "#000000")
    let footerText := footerTextFor text showPageNumbers pageNum
    if footerText ≠ [] then
      (addText d footerText (bandX align) 820
        { size := some 10, align := some align, color := some color }).1
    else d
  | none => d

/-- Source `applyHeaderFooter`: set the re-entrancy guard, revisit every page in
order, then restore the cursor and clear the guard.  (Under the guard no page
is ever added, so iterating over the initial page count matches the source
loop, whose bound is re-read each iteration.) -/
def applyHF (d : Doc) : Doc :=
  let d1 := { d with isApplyingHeaderFooter := true }
  let d2 := (List.range d1.pages.length).foldl applyHFStep d1
  { d2 with currentPageIndex := d.currentPageIndex, isApplyingHeaderFooter := false }

/-! ## Binary serialization (`buildPdf`) -/

/-- Value of a base64 alphabet character. -/
def b64Val (c : Char) : Nat :=
  if 'A' ≤ c && c ≤ 'Z' then c.toNat - 'A'.toNat
  else if 'a' ≤ c && c ≤ 'z' then c.toNat - 'a'.toNat + 26
  else if '0' ≤ c && c ≤ '9' then c.toNat - '0'.toNat + 52
  else if c == '+' then 62
  else if c == '/' then 63
  else 0

/-- Decode groups of four base64 characters into bytes (as characters of a
JS binary string). -/
def b64Decode : List Char → List Char
  | c1 :: c2 :: c3 :: c4 :: rest =>
    let n := b64Val c1 * 262144 + b64Val c2 * 4096 + b64Val c3 * 64 + b64Val c4
    Char.ofNat (n / 65536) :: Char.ofNat (n / 256 % 256) :: Char.ofNat (n % 256) :: b64Decode rest
  | [c1, c2, c3] =>
    let n := b64Val c1 * 1024 + b64Val c2 * 16 + b64Val c3 / 4
    [Char.ofNat (n / 256), Char.ofNat (n % 256)]
  | [c1, c2] => [Char.ofNat ((b64Val c1 * 4 + b64Val c2 / 16) % 256)]
  | _ => []

/-- The host `atob` builtin: base64 → binary string.  (A malformed input
raises in the host; here stray characters decode as zero bits, which no
property proved below depends on.) -/
def atobModel (s : List Char) : List Char :=
  b64Decode (s.filter (fun c => c ≠ '='))

/-- JS `parseInt` restricted to the shapes that occur (a run of leading
decimal digits); `none` models `NaN`. -/
def parseIntJS (s : List Char) : Option Nat :=
  let ds := s.takeWhile (fun c => '0' ≤ c && c ≤ '9')
  if ds = [] then none
  else some (ds.foldl (fun a c => a * 10 + (c.toNat - '0'.toNat)) 0)

/-- One `/F<n> << ... >>` entry of the serialized font resource dictionary:
the font name is re-derived positionally from the resource name
(`Object.keys(this.standardFonts)[parseInt(f.substring(1)) - 1]`), and a
failed recovery propagates the JS `undefined` into the emitted name. -/
def fontResEntry (f : List Char) : List Char :=
  let fontIndex : Option Int := (parseIntJS (f.drop 1)).map (fun n => (n : Int) - 1)
  let fontKey : Option (List Char) :=
    fontIndex.bind (fun i =>
      if h : 0 ≤ i ∧ i.toNat < standardFonts.length then
        some (standardFonts.get ⟨i.toNat, h.2⟩).1
      else none)
  let fontName :=
    match fontKey with
    | some k => (lookupAssoc standardFonts k).getD (S "undefined")
    | none => S "undefined"
  S "/" ++ f ++ S " << /Type /Font /Subtype /Type1 /BaseFont /" ++ fontName ++ S " >> "

/-- A default image record (the source dereferences `images.get(k)!`). -/
def dummyImage : ImageRec := { id := 0, width := 0, height := 0, data := [] }

/-- The per-page `/Resources` dictionary, rebuilt at serialization time. -/
def resourcesDict (images : List (List Char × ImageRec)) (p : Page) : List Char :=
  let fontRes :=
    if p.resources.fonts = [] then []
    else S "/Font << " ++ (p.resources.fonts.map fontResEntry).flatten ++ S ">>"
  let xObjectRes :=
    if p.resources.images = [] then []
    else S "/XObject << " ++
      (p.resources.images.map (fun k =>
        S "/" ++ k ++ S " " ++ N ((lookupAssoc images k).getD dummyImage).id ++ S " 0 R ")).flatten
      ++ S ">>"
  S "<< " ++ fontRes ++ S " " ++ xObjectRes ++ S " >>"

/-- Template `` `${id} 0 obj\n` ``: the object header whose byte position the
cross-reference table records. -/
def objHeaderStr (id : Nat) : List Char := N id ++ S " 0 obj\n"

/-- A full serialized object: header, content, `endobj` footer. -/
def objFull (id : Nat) (content : List Char) : List Char :=
  objHeaderStr id ++ content ++ S "\nendobj\n"

/-- The state threaded through `addObject`: the output buffer, the running
`currentOffset`, and the recorded cross-reference entries (in write order;
the JS array cell `xref[id]` holds the last write for `id`). -/
structure EmitState where
  buffer : List Char
  currentOffset : Nat
  xref : List (Nat × Nat)
deriving DecidableEq

/-- Source `addObject(id, content)`. -/
def addObject (st : EmitState) (id : Nat) (content : List Char) : EmitState :=
  let fullObj := objFull id content
  { buffer := st.buffer ++ fullObj
    currentOffset := st.currentOffset + fullObj.length
    xref := st.xref ++ [(id, st.currentOffset)] }

/-- Emit a list of objects in order. -/
def emitList (st : EmitState) (objs : List (Nat × List Char)) : EmitState :=
  objs.foldl (fun s o => addObject s o.1 o.2) st

/-- Content of the catalog object. -/
def catalogContent (pagesRootId : Nat) : List Char :=
  S "<< /Type /Catalog /Pages " ++ N pagesRootId ++ S " 0 R >>"

/-- The `/Kids` array body. -/
def kidsStr (pages : List Page) : List Char :=
  joinSep (S " ") (pages.map (fun p => N p.id ++ S " 0 R"))

/-- Content of the page-tree root object. -/
def pagesRootContent (pages : List Page) : List Char :=
  S "<< /Type /Pages /Kids [" ++ kidsStr pages ++ S "] /Count " ++ N pages.length ++ S " >>"

/-- Content of one page object. -/
def pageObjContent (pagesRootId : Nat) (res : List Char) (contentId : Nat) : List Char :=
  S "<< /Type /Page /Parent " ++ N pagesRootId ++
  S " 0 R /MediaBox [0 0 595.28 841.89] /Contents " ++ N contentId ++
  S " 0 R /Resources " ++ res ++ S " >>"

/-- Content of one content-stream object. -/
def streamObjContent (streamContent : List Char) : List Char :=
  S "<< /Length " ++ N streamContent.length ++ S " >>\nstream\n" ++ streamContent ++
  S "\nendstream"

/-- Content of one image XObject. -/
def imageObjContent (img : ImageRec) : List Char :=
  let binaryString := atobModel img.data
  S "<< /Type /XObject /Subtype /Image /Width " ++ Q img.width ++ S " /Height " ++
  Q img.height ++ S " /ColorSpace /DeviceRGB /BitsPerComponent 8 /Filter /DCTDecode /Length " ++
  N binaryString.length ++ S " >>\nstream\n" ++ binaryString ++ S "\nendstream"

/-- The fixed emission order of `buildPdf`: catalog, page-tree root, each
page interleaved with its content stream, then each image in registration
order. -/
def serializedObjects (d2 : Doc) (catalogId pagesRootId : Nat) : List (Nat × List Char) :=
  [(catalogId, catalogContent pagesRootId), (pagesRootId, pagesRootContent d2.pages)]
  ++ d2.pages.flatMap (fun p =>
      [(p.id, pageObjContent pagesRootId (resourcesDict d2.images p) p.contentId),
       (p.contentId, streamObjContent (joinSep (S "\n") p.content))])
  ++ d2.images.map (fun kv => (kv.2.id, imageObjContent kv.2))

/-- The offset the xref section prints for object id `k`: the last write to
the JS array cell `xref[k]` (0 if the cell was never written, where the
source would fault). -/
def xrefLookup (xr : List (Nat × Nat)) (k : Nat) : Nat :=
  ((xr.filter (fun e => e.1 = k)).getLast?.map (fun e => e.2)).getD 0

/-- Expression `offset.toString().padStart(10, '0')`. -/
def pad10 (n : Nat) : List Char :=
  List.replicate (10 - (N n).length) '0' ++ N n

/-- The rendered cross-reference section. -/
def xrefSectionStr (objectCounter : Nat) (xr : List (Nat × Nat)) : List Char :=
  S "xref\n0 " ++ N objectCounter ++ S "\n0000000000 65535 f \n" ++
  ((List.range (objectCounter - 1)).map
    (fun j => pad10 (xrefLookup xr (j + 1)) ++ S " 00000 n \n")).flatten

/-- The trailer. -/
def trailerStr (objectCounter catalogId xrefOffset : Nat) : List Char :=
  S "trailer\n<< /Size " ++ N objectCounter ++ S " /Root " ++ N catalogId ++
  S " 0 R >>\nstartxref\n" ++ N xrefOffset ++ S "\n%%EOF"

/-- Everything `buildPdf` produces, kept apart for inspection: the document
after header/footer injection and the two serialization-time allocations, the
emission list, the recorded cross-reference entries, and the final buffer and
byte array. -/
structure BuildResult where
  d2 : Doc
  catalogId : Nat
  pagesRootId : Nat
  objects : List (Nat × List Char)
  xref : List (Nat × Nat)
  xrefOffset : Nat
  buffer : List Char
  bytes : List Nat
deriving DecidableEq

/-- Source `buildPdf`. -/
def buildPdfData (d0 : Doc) : BuildResult :=
  let d1 := applyHF d0
  let catalogId := d1.objectCounter
  let pagesRootId := d1.objectCounter + 1
  let d2 := { d1 with objectCounter := d1.objectCounter + 2 }
  let objs := serializedObjects d2 catalogId pagesRootId
  let header := S "%PDF-1.7\n"
  let st := emitList { buffer := header, currentOffset := header.length, xref := [] } objs
  let xrefOffset := st.currentOffset
  let buffer := st.buffer ++ xrefSectionStr d2.objectCounter st.xref
    ++ trailerStr d2.objectCounter catalogId xrefOffset
  { d2 := d2, catalogId := catalogId, pagesRootId := pagesRootId, objects := objs,
    xref := st.xref, xrefOffset := xrefOffset, buffer := buffer,
    bytes := buffer.map charByte }

/-! ## Derived forms and claim-support definitions -/

/-- Default page value used with `List.getD`. -/
def dummyPage : Page := freshPage 0 0

/-- The aggregate effect of one `applyHeaderFooter` iteration on the page it
visits (derived form of `applyHFStep`, proved equal to it below). -/
def hfPageTransform (cfg : PdfConfig) (pageNum : Nat) (p : Page) : Page :=
  let p1 :=
    match cfg.defaultHeader with
    | some hc =>
      let text := hc.text.getD []
      let align := hc.align.getD Align.center
      let color := hc.color.getD (S "#000000")
      if text ≠ [] then
        textPageUpd text (bandX align) 20
          { size := some 10, align := some align, color := some color } p
      else p
    | none => p
  match cfg.defaultFooter with
  | some fc =>
    let text := fc.text.getD []
    let showPageNumbers := fc.showPageNumbers.getD true
    let align := fc.align.getD Align.center
    let color := fc.color.getD (S "#000000")
    let footerText := footerTextFor text showPageNumbers pageNum
    if footerText ≠ [] then
      textPageUpd footerText (bandX align) 820
        { size := some 10, align := some align, color := some color } p1
    else p1
  | none => p1

/-- Ids stored in the page list: structural id and content-stream id of each
page, in page order (which is allocation order). -/
def pageIdsOf (d : Doc) : List Nat := d.pages.flatMap (fun p => [p.id, p.contentId])

/-- Ids stored in the image registry, in registration order. -/
def imageIdsOf (d : Doc) : List Nat := d.images.map (fun kv => kv.2.id)

/-- All structural-entity ids held by the document. -/
def structIds (d : Doc) : List Nat := pageIdsOf d ++ imageIdsOf d

/-- The allocator invariant: ids in allocation order are strictly increasing
starting at 1, pairwise distinct across entities, and below the counter. -/
def allocInv (d : Doc) : Prop :=
  List.Pairwise (· < ·) (pageIdsOf d) ∧
  List.Pairwise (· < ·) (imageIdsOf d) ∧
  (structIds d).Nodup ∧
  (∀ k ∈ structIds d, 1 ≤ k ∧ k < d.objectCounter) ∧
  (pageIdsOf d).head? = some 1 ∧
  1 ≤ d.objectCounter

/-- A client operation issued after construction.  The `image` operation
carries the settled outcome of its (host-side) processing step; `addImage`
consults its oracle exactly once, on its own source argument, so a constant
oracle loses no generality for reachability. -/
inductive ClientOp where
  | page : ClientOp
  | text (t : List Char) (x y : ℚ) (opts : TextOptions) : ClientOp
  | image (result : Except Unit (List Char)) (src : List Char) (x y : ℚ)
      (opts : ImageOptions) : ClientOp

/-- Apply one client operation. -/
def applyOp (d : Doc) : ClientOp → Doc
  | .page => addPage d
  | .text t x y o => (addText d t x y o).1
  | .image res src x y o => (addImage d (fun _ => res) src x y o).1

/-- Run a sequence of client operations. -/
def runOps (d : Doc) (ops : List ClientOp) : Doc := ops.foldl applyOp d

/-- Does a serialized object's content open like a page object?  (Page
objects open with `<< /Type /Page /Parent`; the page-tree root opens with
`<< /Type /Pages`, which differs at the character after `Page`.) -/
def isPageObjContent (c : List Char) : Bool := isLead (S "<< /Type /Page /") c

/-- Exactly six hexadecimal digits. -/
def sixHex : List Char → Bool
  | [c1, c2, c3, c4, c5, c6] =>
    isHexDigit c1 && isHexDigit c2 && isHexDigit c3 && isHexDigit c4 &&
    isHexDigit c5 && isHexDigit c6
  | _ => false

/-- The literal `#RRGGBB` pattern of the specification sentence: a mandatory
`#` followed by six hexadecimal digits. -/
def matchesHashHexPattern : List Char → Bool
  | c :: r => c = '#' && sixHex r
  | [] => false

/-- The pattern the source regex accepts: the leading `#` is optional. -/
def matchesLooseHexPattern : List Char → Bool
  | c :: r => if c = '#' then sixHex r else sixHex (c :: r)
  | [] => false

/-- Concrete document: default construction, no configuration. -/
def docW : Doc := newDoc {}

/-- Concrete document with both reserved heights at the clamped maximum and
the re-entrancy guard set, as during header/footer injection. -/
def docG : Doc :=
  { newDoc { headerHeight := some 300, footerHeight := some 250 } with
    isApplyingHeaderFooter := true }

/-- Concrete document configured with a page-number-only default footer. -/
def docF : Doc := newDoc { defaultFooter := some { showPageNumbers := some true } }

/-- Concrete document configured with footer text and no `showPageNumbers`
setting. -/
def docT : Doc := newDoc { defaultFooter := some { text := some (S "Doc") } }

/-- The document fields that no text placement, page switch or header/footer
iteration ever changes. -/
def FieldPres (d e : Doc) : Prop :=
  e.config = d.config ∧ e.images = d.images ∧ e.fonts = d.fonts ∧
  e.headerHeight = d.headerHeight ∧ e.footerHeight = d.footerHeight ∧
  e.isApplyingHeaderFooter = d.isApplyingHeaderFooter

/-- The invariant maintained while `buildPdf` emits objects: the running
offset is the buffer length, and every recorded cross-reference entry points
at the byte where its object header begins. -/
def emitInv (st : EmitState) : Prop :=
  st.currentOffset = st.buffer.length ∧
  ∀ e ∈ st.xref, e.2 ≤ st.buffer.length ∧ isLead (objHeaderStr e.1) (st.buffer.drop e.2) = true

/-! ## List utility lemmas -/

theorem updateAt_length {α : Type} (l : List α) (i : Nat) (f : α → α) :
    (updateAt l i f).length = l.length := by
  induction l generalizing i with
  | nil => rfl
  | cons a as ih =>
    cases i with
    | zero => rfl
    | succ n => simp [updateAt, ih]

theorem updateAt_getD_eq {α : Type} (l : List α) (i : Nat) (f : α → α) (dflt : α)
    (h : i < l.length) : (updateAt l i f).getD i dflt = f (l.getD i dflt) := by
  induction l generalizing i with
  | nil => simp at h
  | cons a as ih =>
    cases i with
    | zero => rfl
    | succ n =>
      simp only [updateAt, List.getD_cons_succ]
      exact ih n (by simpa using h)

theorem updateAt_getD_ne {α : Type} (l : List α) (i j : Nat) (f : α → α) (dflt : α)
    (h : i ≠ j) : (updateAt l i f).getD j dflt = l.getD j dflt := by
  induction l generalizing i j with
  | nil => rfl
  | cons a as ih =>
    cases i with
    | zero =>
      cases j with
      | zero => exact absurd rfl h
      | succ m => rfl
    | succ n =>
      cases j with
      | zero => rfl
      | succ m =>
        simp only [updateAt, List.getD_cons_succ]
        exact ih n m (by omega)

theorem updateAt_updateAt {α : Type} (l : List α) (i : Nat) (f g : α → α) :
    updateAt (updateAt l i f) i g = updateAt l i (fun a => g (f a)) := by
  induction l generalizing i with
  | nil => rfl
  | cons a as ih =>
    cases i with
    | zero => rfl
    | succ n => simp [updateAt, ih]

theorem updateAt_id {α : Type} (l : List α) (i : Nat) :
    updateAt l i (fun a => a) = l := by
  induction l generalizing i with
  | nil => rfl
  | cons a as ih =>
    cases i with
    | zero => rfl
    | succ n => simp [updateAt, ih]

theorem updateAt_snoc {α : Type} (l : List α) (x : α) (f : α → α) :
    updateAt (l ++ [x]) l.length f = l ++ [f x] := by
  induction l with
  | nil => rfl
  | cons a as ih => simp [updateAt, ih]

theorem take_append_self {α : Type} (l m : List α) : (l ++ m).take l.length = l := by
  induction l with
  | nil => rfl
  | cons a as ih => simp [ih]

theorem drop_append_self {α : Type} (l m : List α) : (l ++ m).drop l.length = m := by
  induction l with
  | nil => rfl
  | cons a as ih => simp [ih]

theorem drop_append_of_le {α : Type} (l m : List α) (n : Nat) (h : n ≤ l.length) :
    (l ++ m).drop n = l.drop n ++ m := by
  induction l generalizing n with
  | nil =>
    simp at h
    subst h
    rfl
  | cons a as ih =>
    cases n with
    | zero => rfl
    | succ k =>
      simp only [List.cons_append, List.drop_succ_cons]
      exact ih k (by simpa using h)

theorem isLead_append_self {α : Type} [BEq α] [LawfulBEq α] (p t : List α) :
    isLead p (p ++ t) = true := by
  induction p with
  | nil => rfl
  | cons a as ih => simp [isLead, ih]

theorem isLead_mono {α : Type} [BEq α] (p l r : List α) (h : isLead p l = true) :
    isLead p (l ++ r) = true := by
  induction p generalizing l with
  | nil => rfl
  | cons a as ih =>
    cases l with
    | nil => simp [isLead] at h
    | cons b bs =>
      simp only [isLead, Bool.and_eq_true] at h ⊢
      exact ⟨h.1, ih bs h.2⟩

theorem isLead_take {α : Type} [BEq α] (p l r : List α) (h : isLead p (l ++ r) = true) :
    isLead (p.take l.length) l = true := by
  induction l generalizing p with
  | nil => cases p <;> rfl
  | cons b bs ih =>
    cases p with
    | nil => rfl
    | cons a as =>
      simp only [List.cons_append, isLead, Bool.and_eq_true] at h
      simp only [List.length_cons, List.take_succ_cons, isLead, Bool.and_eq_true]
      exact ⟨h.1, ih as h.2⟩

/-- Contrapositive discriminator: a pattern that fails against the literal
head of a content string fails against the whole string. -/
theorem isLead_append_false {α : Type} [BEq α] (p l r : List α)
    (h : isLead (p.take l.length) l = false) : isLead p (l ++ r) = false := by
  cases hc : isLead p (l ++ r) with
  | false => rfl
  | true => rw [isLead_take p l r hc] at h; cases h

theorem isLead_map {α β : Type} [BEq α] [LawfulBEq α] [BEq β] [LawfulBEq β]
    (f : α → β) (p l : List α) (h : isLead p l = true) :
    isLead (p.map f) (l.map f) = true := by
  induction p generalizing l with
  | nil => rfl
  | cons a as ih =>
    cases l with
    | nil => simp [isLead] at h
    | cons b bs =>
      simp only [isLead, Bool.and_eq_true, beq_iff_eq] at h
      simp only [List.map_cons, isLead, Bool.and_eq_true, beq_iff_eq]
      exact ⟨by rw [h.1], ih bs h.2⟩

theorem isLead_length_le {α : Type} [BEq α] (p l : List α) (h : isLead p l = true) :
    p.length ≤ l.length := by
  induction p generalizing l with
  | nil => simp
  | cons a as ih =>
    cases l with
    | nil => simp [isLead] at h
    | cons b bs =>
      simp only [isLead, Bool.and_eq_true] at h
      simpa using ih bs h.2

theorem getD_append_left {α : Type} (l m : List α) (i : Nat) (dflt : α) (h : i < l.length) :
    (l ++ m).getD i dflt = l.getD i dflt := by
  induction l generalizing i with
  | nil => simp at h
  | cons a as ih =>
    cases i with
    | zero => rfl
    | succ n =>
      simp only [List.cons_append, List.getD_cons_succ]
      exact ih n (by simpa using h)

theorem drop_map_comm {α β : Type} (f : α → β) (l : List α) (n : Nat) :
    (l.map f).drop n = (l.drop n).map f := by
  induction l generalizing n with
  | nil => simp
  | cons a as ih =>
    cases n with
    | zero => rfl
    | succ k =>
      simp only [List.map_cons, List.drop_succ_cons]
      exact ih k

theorem flatMap_updateAt_const {α β : Type} (l : List α) (i : Nat) (f : α → α)
    (g : α → List β) (hf : ∀ a, g (f a) = g a) :
    (updateAt l i f).flatMap g = l.flatMap g := by
  induction l generalizing i with
  | nil => rfl
  | cons a as ih =>
    cases i with
    | zero => simp [updateAt, hf]
    | succ n => simp [updateAt, ih]

/-! ## Basic operation lemmas -/

theorem addPage_fields (d : Doc) :
    (addPage d).config = d.config ∧ (addPage d).images = d.images ∧
    (addPage d).fonts = d.fonts ∧ (addPage d).headerHeight = d.headerHeight ∧
    (addPage d).footerHeight = d.footerHeight ∧
    (addPage d).isApplyingHeaderFooter = d.isApplyingHeaderFooter ∧
    (addPage d).objectCounter = d.objectCounter + 2 ∧
    (addPage d).pages = d.pages ++ [freshPage d.objectCounter (d.objectCounter + 1)] ∧
    (addPage d).currentPageIndex = d.pages.length :=
  ⟨rfl, rfl, rfl, rfl, rfl, rfl, rfl, rfl, rfl⟩

theorem setPage_pres (d : Doc) (i : Nat) :
    (setPage d i).config = d.config ∧ (setPage d i).pages = d.pages ∧
    (setPage d i).images = d.images ∧ (setPage d i).fonts = d.fonts ∧
    (setPage d i).objectCounter = d.objectCounter ∧
    (setPage d i).headerHeight = d.headerHeight ∧
    (setPage d i).footerHeight = d.footerHeight ∧
    (setPage d i).isApplyingHeaderFooter = d.isApplyingHeaderFooter := by
  unfold setPage
  split <;> simp

theorem setPage_eq (d : Doc) (i : Nat) (h : i < d.pages.length) :
    setPage d i = { d with currentPageIndex := i } := by
  unfold setPage
  rw [if_pos h]

/-- Under the re-entrancy guard, `addText` never paginates: it only updates
the current page in place and returns the requested Y. -/
theorem addText_guard_doc (d : Doc) (t : List Char) (x y : ℚ) (o : TextOptions)
    (hg : d.isApplyingHeaderFooter = true) :
    addText d t x y o =
      ({ d with pages := updateAt d.pages d.currentPageIndex (textPageUpd t x y o) }, y) := by
  simp [addText, hg]

theorem addText_pres (d : Doc) (t : List Char) (x y : ℚ) (o : TextOptions) :
    ((addText d t x y o).1).config = d.config ∧
    ((addText d t x y o).1).images = d.images ∧
    ((addText d t x y o).1).fonts = d.fonts ∧
    ((addText d t x y o).1).headerHeight = d.headerHeight ∧
    ((addText d t x y o).1).footerHeight = d.footerHeight ∧
    ((addText d t x y o).1).isApplyingHeaderFooter = d.isApplyingHeaderFooter := by
  unfold addText
  dsimp only
  split <;> simp [addPage]

theorem addImage_pres (d : Doc) (oracle : List Char → Except Unit (List Char))
    (img : List Char) (x y : ℚ) (o : ImageOptions) :
    ((addImage d oracle img x y o).1).config = d.config ∧
    ((addImage d oracle img x y o).1).fonts = d.fonts ∧
    ((addImage d oracle img x y o).1).headerHeight = d.headerHeight ∧
    ((addImage d oracle img x y o).1).footerHeight = d.footerHeight ∧
    ((addImage d oracle img x y o).1).isApplyingHeaderFooter = d.isApplyingHeaderFooter := by
  unfold addImage
  dsimp only
  cases ho : oracle img with
  | error e =>
    dsimp only
    split <;> simp [addPage]
  | ok processed =>
    dsimp only
    split <;> split <;> simp [addPage]

/-- A failed processing step leaves `addImage` with only the (possible)
overflow page appended and the error surfaced. -/
theorem addImage_err (d : Doc) (oracle : List Char → Except Unit (List Char))
    (img : List Char) (x y : ℚ) (o : ImageOptions) (e : Unit)
    (h : oracle img = .error e) :
    addImage d oracle img x y o =
      ((if d.isApplyingHeaderFooter = false ∧ y + o.height > pageHeight - d.footerHeight
        then addPage d else d), .error e) := by
  unfold addImage
  rw [h]

/-! ## Header/footer pass lemmas -/

theorem FieldPres_trans {d e f : Doc} (h1 : FieldPres d e) (h2 : FieldPres e f) :
    FieldPres d f :=
  ⟨h2.1.trans h1.1, h2.2.1.trans h1.2.1, h2.2.2.1.trans h1.2.2.1,
    h2.2.2.2.1.trans h1.2.2.2.1, h2.2.2.2.2.1.trans h1.2.2.2.2.1,
    h2.2.2.2.2.2.trans h1.2.2.2.2.2⟩

theorem FieldPres_refl (d : Doc) : FieldPres d d := ⟨rfl, rfl, rfl, rfl, rfl, rfl⟩

theorem setPage_fieldPres (d : Doc) (i : Nat) : FieldPres d (setPage d i) := by
  obtain ⟨c, _, im, f, _, hh, ff, g⟩ := setPage_pres d i
  exact ⟨c, im, f, hh, ff, g⟩

theorem addText_fieldPres (d : Doc) (t : List Char) (x y : ℚ) (o : TextOptions) :
    FieldPres d (addText d t x y o).1 := by
  obtain ⟨c, im, f, hh, ff, g⟩ := addText_pres d t x y o
  exact ⟨c, im, f, hh, ff, g⟩

/-- Full characterization of one pass iteration for a valid index under the
guard: the cursor moves to page `i` and exactly that page is rewritten by the
derived page transform. -/
theorem applyHFStep_eq (d : Doc) (i : Nat) (hg : d.isApplyingHeaderFooter = true)
    (hi : i < d.pages.length) :
    applyHFStep d i =
      { d with currentPageIndex := i,
               pages := updateAt d.pages i (hfPageTransform d.config (i + 1)) } := by
  unfold applyHFStep
  rw [setPage_eq d i hi]
  dsimp only
  cases hH : d.config.defaultHeader with
  | none =>
    dsimp only
    cases hF : d.config.defaultFooter with
    | none =>
      rw [show hfPageTransform d.config (i + 1) = (fun p => p) from
            funext (fun p => by simp [hfPageTransform, hH, hF]), updateAt_id]
    | some fc =>
      dsimp only
      by_cases hft :
          footerTextFor (fc.text.getD []) (fc.showPageNumbers.getD true) (i + 1) ≠ []
      · rw [if_pos hft, addText_guard_doc _ _ _ _ _ (by exact hg)]
        dsimp only
        rw [show hfPageTransform d.config (i + 1) =
              (fun p => textPageUpd
                (footerTextFor (fc.text.getD []) (fc.showPageNumbers.getD true) (i + 1))
                (bandX (fc.align.getD Align.center)) 820
                { size := some 10, align := some (fc.align.getD Align.center),
                  color := some (fc.color.getD (S "#000000")) } p) from
              funext (fun p => by simp [hfPageTransform, hH, hF, hft])]
      · rw [if_neg hft,
            show hfPageTransform d.config (i + 1) = (fun p => p) from
              funext (fun p => by simp [hfPageTransform, hH, hF, hft]), updateAt_id]
  | some hc =>
    dsimp only
    by_cases hht : hc.text.getD [] ≠ []
    · rw [if_pos hht, addText_guard_doc _ _ _ _ _ (by exact hg)]
      dsimp only
      cases hF : d.config.defaultFooter with
      | none =>
        rw [show hfPageTransform d.config (i + 1) =
              (fun p => textPageUpd (hc.text.getD []) (bandX (hc.align.getD Align.center)) 20
                { size := some 10, align := some (hc.align.getD Align.center),
                  color := some (hc.color.getD (S "#000000")) } p) from
              funext (fun p => by simp [hfPageTransform, hH, hF, hht])]
      | some fc =>
        dsimp only
        by_cases hft :
            footerTextFor (fc.text.getD []) (fc.showPageNumbers.getD true) (i + 1) ≠ []
        · rw [if_pos hft, addText_guard_doc _ _ _ _ _ (by exact hg)]
          dsimp only
          rw [updateAt_updateAt]
          rw [show hfPageTransform d.config (i + 1) =
                (fun p => textPageUpd
                  (footerTextFor (fc.text.getD []) (fc.showPageNumbers.getD true) (i + 1))
                  (bandX (fc.align.getD Align.center)) 820
                  { size := some 10, align := some (fc.align.getD Align.center),
                    color := some (fc.color.getD (S "#000000")) }
                  (textPageUpd (hc.text.getD []) (bandX (hc.align.getD Align.center)) 20
                    { size := some 10, align := some (hc.align.getD Align.center),
                      color := some (hc.color.getD (S "#000000")) } p)) from
                funext (fun p => by simp [hfPageTransform, hH, hF, hht, hft])]
        · rw [if_neg hft]
          rw [show hfPageTransform d.config (i + 1) =
                (fun p => textPageUpd (hc.text.getD []) (bandX (hc.align.getD Align.center)) 20
                  { size := some 10, align := some (hc.align.getD Align.center),
                    color := some (hc.color.getD (S "#000000")) } p) from
                funext (fun p => by simp [hfPageTransform, hH, hF, hht, hft])]
    · rw [if_neg hht]
      cases hF : d.config.defaultFooter with
      | none =>
        rw [show hfPageTransform d.config (i + 1) = (fun p => p) from
              funext (fun p => by simp [hfPageTransform, hH, hF, hht]), updateAt_id]
      | some fc =>
        dsimp only
        by_cases hft :
            footerTextFor (fc.text.getD []) (fc.showPageNumbers.getD true) (i + 1) ≠ []
        · rw [if_pos hft, addText_guard_doc _ _ _ _ _ (by exact hg)]
          dsimp only
          rw [show hfPageTransform d.config (i + 1) =
                (fun p => textPageUpd
                  (footerTextFor (fc.text.getD []) (fc.showPageNumbers.getD true) (i + 1))
                  (bandX (fc.align.getD Align.center)) 820
                  { size := some 10, align := some (fc.align.getD Align.center),
                    color := some (fc.color.getD (S "#000000")) } p) from
                funext (fun p => by simp [hfPageTransform, hH, hF, hht, hft])]
        · rw [if_neg hft,
              show hfPageTransform d.config (i + 1) = (fun p => p) from
                funext (fun p => by simp [hfPageTransform, hH, hF, hht, hft]), updateAt_id]

theorem textPageUpd_ids (t : List Char) (x y : ℚ) (o : TextOptions) (p : Page) :
    (textPageUpd t x y o p).id = p.id ∧ (textPageUpd t x y o p).contentId = p.contentId :=
  ⟨rfl, rfl⟩

theorem hfPageTransform_ids (cfg : PdfConfig) (n : Nat) (p : Page) :
    (hfPageTransform cfg n p).id = p.id ∧ (hfPageTransform cfg n p).contentId = p.contentId := by
  unfold hfPageTransform
  cases cfg.defaultHeader <;> cases cfg.defaultFooter <;> dsimp only <;>
    constructor <;> (repeat' split) <;> simp [textPageUpd]

/-- Invariants carried through the `applyHeaderFooter` loop: every stable
field, the page count, the stored ids, and the pages not visited. -/
theorem foldHF_main (l : List Nat) (d : Doc) (hg : d.isApplyingHeaderFooter = true)
    (hl : ∀ j ∈ l, j < d.pages.length) :
    ((l.foldl applyHFStep d).config = d.config) ∧
    ((l.foldl applyHFStep d).images = d.images) ∧
    ((l.foldl applyHFStep d).fonts = d.fonts) ∧
    ((l.foldl applyHFStep d).headerHeight = d.headerHeight) ∧
    ((l.foldl applyHFStep d).footerHeight = d.footerHeight) ∧
    ((l.foldl applyHFStep d).isApplyingHeaderFooter = true) ∧
    ((l.foldl applyHFStep d).objectCounter = d.objectCounter) ∧
    ((l.foldl applyHFStep d).pages.length = d.pages.length) ∧
    ((l.foldl applyHFStep d).pages.flatMap (fun p => [p.id, p.contentId]) =
       d.pages.flatMap (fun p => [p.id, p.contentId])) ∧
    (∀ i, i ∉ l → (l.foldl applyHFStep d).pages.getD i dummyPage = d.pages.getD i dummyPage) := by
  induction l generalizing d with
  | nil => exact ⟨rfl, rfl, rfl, rfl, rfl, hg, rfl, rfl, rfl, fun i _ => rfl⟩
  | cons a as ih =>
    have ha : a < d.pages.length := hl a (List.mem_cons_self a as)
    have hstep := applyHFStep_eq d a hg ha
    have hc1 : (applyHFStep d a).config = d.config := by rw [hstep]
    have hi1 : (applyHFStep d a).images = d.images := by rw [hstep]
    have hf1 : (applyHFStep d a).fonts = d.fonts := by rw [hstep]
    have hh1 : (applyHFStep d a).headerHeight = d.headerHeight := by rw [hstep]
    have hft1 : (applyHFStep d a).footerHeight = d.footerHeight := by rw [hstep]
    have hg1 : (applyHFStep d a).isApplyingHeaderFooter = true := by rw [hstep]; exact hg
    have ho1 : (applyHFStep d a).objectCounter = d.objectCounter := by rw [hstep]
    have hp1 : (applyHFStep d a).pages = updateAt d.pages a (hfPageTransform d.config (a + 1)) := by
      rw [hstep]
    have hlen1 : (applyHFStep d a).pages.length = d.pages.length := by
      rw [hp1, updateAt_length]
    obtain ⟨k1, k2, k3, k4, k5, k6, k7, k8, k9, k10⟩ :=
      ih (applyHFStep d a) hg1
        (fun j hj => by rw [hlen1]; exact hl j (List.mem_cons_of_mem a hj))
    simp only [List.foldl_cons]
    refine ⟨k1.trans hc1, k2.trans hi1, k3.trans hf1, k4.trans hh1, k5.trans hft1, k6,
      k7.trans ho1, k8.trans hlen1, k9.trans ?_, ?_⟩
    · rw [hp1]
      exact flatMap_updateAt_const _ _ _ _
        (fun p => by
          rw [show (hfPageTransform d.config (a + 1) p).id = p.id from
                (hfPageTransform_ids _ _ p).1,
              show (hfPageTransform d.config (a + 1) p).contentId = p.contentId from
                (hfPageTransform_ids _ _ p).2])
    · intro i hi'
      have hi2 : ¬(i = a ∨ i ∈ as) := by simpa [List.mem_cons] using hi'
      push_neg at hi2
      rw [k10 i hi2.2, hp1, updateAt_getD_ne _ _ _ _ _ (fun h => hi2.1 h.symm)]

/-- The page visited at index `i` is rewritten by the derived transform,
exactly once, by the `applyHeaderFooter` loop. -/
theorem foldHF_getD_mem (l : List Nat) (d : Doc) (hg : d.isApplyingHeaderFooter = true)
    (hl : ∀ j ∈ l, j < d.pages.length) (hnd : l.Nodup) (i : Nat) (hmem : i ∈ l) :
    (l.foldl applyHFStep d).pages.getD i dummyPage =
      hfPageTransform d.config (i + 1) (d.pages.getD i dummyPage) := by
  induction l generalizing d with
  | nil => cases hmem
  | cons a as ih =>
    have ha : a < d.pages.length := hl a (List.mem_cons_self a as)
    have hstep := applyHFStep_eq d a hg ha
    have hc1 : (applyHFStep d a).config = d.config := by rw [hstep]
    have hg1 : (applyHFStep d a).isApplyingHeaderFooter = true := by rw [hstep]; exact hg
    have hp1 : (applyHFStep d a).pages = updateAt d.pages a (hfPageTransform d.config (a + 1)) := by
      rw [hstep]
    have hlen1 : (applyHFStep d a).pages.length = d.pages.length := by
      rw [hp1, updateAt_length]
    have hl1 : ∀ j ∈ as, j < (applyHFStep d a).pages.length :=
      fun j hj => by rw [hlen1]; exact hl j (List.mem_cons_of_mem a hj)
    obtain ⟨hna, hndas⟩ := List.nodup_cons.mp hnd
    simp only [List.foldl_cons]
    by_cases hai : i = a
    · subst hai
      obtain ⟨_, _, _, _, _, _, _, _, _, k10⟩ := foldHF_main as (applyHFStep d i) hg1 hl1
      rw [k10 i hna, hp1, updateAt_getD_eq _ _ _ _ ha]
    · have hmem2 : i ∈ as := by
        cases List.mem_cons.mp hmem with
        | inl h => exact absurd h hai
        | inr h => exact h
      rw [ih (applyHFStep d a) hg1 hl1 hndas hmem2, hc1, hp1,
        updateAt_getD_ne _ _ _ _ _ (fun h => hai h.symm)]

theorem applyHF_props (d : Doc) :
    (applyHF d).config = d.config ∧
    (applyHF d).images = d.images ∧
    (applyHF d).fonts = d.fonts ∧
    (applyHF d).headerHeight = d.headerHeight ∧
    (applyHF d).footerHeight = d.footerHeight ∧
    (applyHF d).isApplyingHeaderFooter = false ∧
    (applyHF d).currentPageIndex = d.currentPageIndex ∧
    (applyHF d).objectCounter = d.objectCounter ∧
    (applyHF d).pages.length = d.pages.length ∧
    pageIdsOf (applyHF d) = pageIdsOf d := by
  obtain ⟨k1, k2, k3, k4, k5, _, k7, k8, k9, _⟩ :=
    foldHF_main (List.range d.pages.length) { d with isApplyingHeaderFooter := true } rfl
      (fun _ hj => List.mem_range.mp hj)
  exact ⟨k1, k2, k3, k4, k5, rfl, rfl, k7, k8, k9⟩

theorem applyHF_pages_getD (d : Doc) (i : Nat) (hi : i < d.pages.length) :
    (applyHF d).pages.getD i dummyPage =
      hfPageTransform d.config (i + 1) (d.pages.getD i dummyPage) :=
  foldHF_getD_mem (List.range d.pages.length) { d with isApplyingHeaderFooter := true } rfl
    (fun _ hj => List.mem_range.mp hj) (List.nodup_range _) i (List.mem_range.mpr hi)

/-! ## Serializer lemmas -/

theorem addObject_inv (st : EmitState) (id : Nat) (content : List Char) (h : emitInv st) :
    emitInv (addObject st id content) := by
  obtain ⟨hoff, hx⟩ := h
  unfold addObject emitInv
  dsimp only
  constructor
  · simp [List.length_append, hoff]
  · intro e he
    rw [List.mem_append, List.mem_singleton] at he
    cases he with
    | inl hm =>
      obtain ⟨hle, hlead⟩ := hx e hm
      constructor
      · simp only [List.length_append]
        omega
      · rw [drop_append_of_le _ _ _ hle]
        exact isLead_mono _ _ _ hlead
    | inr hnew =>
      subst hnew
      dsimp only
      constructor
      · rw [hoff, List.length_append]
        exact Nat.le_add_right _ _
      · rw [hoff, drop_append_self]
        unfold objFull
        rw [List.append_assoc]
        exact isLead_append_self _ _

theorem emitList_inv (objs : List (Nat × List Char)) (st : EmitState) (h : emitInv st) :
    emitInv (emitList st objs) := by
  induction objs generalizing st with
  | nil => exact h
  | cons o os ih =>
    simp only [emitList, List.foldl_cons]
    exact ih _ (addObject_inv _ _ _ h)

/-! ## Claim theorems -/

/-- C1: every cross-reference entry recorded for object id `k` is exactly the
byte index in the final output byte array at which the header `k 0 obj`
begins. -/
theorem xref_offset_exact (d : Doc) (k off : Nat)
    (h : (k, off) ∈ (buildPdfData d).xref) :
    isLead ((objHeaderStr k).map charByte) ((buildPdfData d).bytes.drop off) = true := by
  have h0 : emitInv
      { buffer := S "%PDF-1.7\n", currentOffset := (S "%PDF-1.7\n").length,
        xref := ([] : List (Nat × Nat)) } :=
    ⟨rfl, by intro e he; cases he⟩
  unfold buildPdfData at h ⊢
  dsimp only at h ⊢
  obtain ⟨hoff, hx⟩ := emitList_inv _ _ h0
  obtain ⟨hle, hlead⟩ := hx (k, off) h
  rw [drop_map_comm]
  apply isLead_map
  rw [List.append_assoc, drop_append_of_le _ _ _ hle]
  exact isLead_mono _ _ _ hlead

/-- Witness for C1: in the default document, object 3 (the catalog) is
recorded at byte offset 9, where `3 0 obj` indeed begins. -/
theorem xref_offset_exact_witness :
    isLead ((objHeaderStr 3).map charByte) ((buildPdfData docW).bytes.drop 9) = true :=
  xref_offset_exact docW 3 9 (by decide)

/-- C2: an `addText` call made outside header/footer injection with
`y + size > pageHeight - footerHeight` appends exactly one new page, places
the text on it at `y = headerHeight + 20`, and returns that applied Y;
`addImage` applies the same rule with `height` in place of `size`. -/
theorem overflow_pagination :
    (∀ (d : Doc) (text : List Char) (x y : ℚ) (opts : TextOptions),
      d.isApplyingHeaderFooter = false →
      y + opts.size.getD 12 > pageHeight - d.footerHeight →
      (addText d text x y opts).2 = d.headerHeight + 20 ∧
      (addText d text x y opts).1.pages =
        d.pages ++ [textPageUpd text x (d.headerHeight + 20) opts
          (freshPage d.objectCounter (d.objectCounter + 1))]) ∧
    (∀ (d : Doc) (oracle : List Char → Except Unit (List Char)) (imageData : List Char)
        (x y : ℚ) (opts : ImageOptions),
      d.isApplyingHeaderFooter = false →
      y + opts.height > pageHeight - d.footerHeight →
      (addImage d oracle imageData x y opts).1.pages.length = d.pages.length + 1 ∧
      (addImage d oracle imageData x y opts).1.pages.take d.pages.length = d.pages ∧
      ∀ processed, oracle imageData = Except.ok processed →
        (addImage d oracle imageData x y opts).2 = Except.ok (d.headerHeight + 20)) := by
  constructor
  · intro d text x y opts hg hy
    have hcond : d.isApplyingHeaderFooter = false ∧
        y + opts.size.getD 12 > pageHeight - d.footerHeight := ⟨hg, hy⟩
    unfold addText
    dsimp only
    rw [if_pos hcond, if_pos hcond]
    refine ⟨rfl, ?_⟩
    show updateAt (addPage d).pages (addPage d).currentPageIndex _ = _
    rw [show (addPage d).pages = d.pages ++ [freshPage d.objectCounter (d.objectCounter + 1)]
          from rfl,
        show (addPage d).currentPageIndex = d.pages.length from rfl,
        updateAt_snoc]
  · intro d oracle imageData x y opts hg hy
    have hcond : d.isApplyingHeaderFooter = false ∧
        y + opts.height > pageHeight - d.footerHeight := ⟨hg, hy⟩
    unfold addImage
    dsimp only
    rw [if_pos hcond, if_pos hcond]
    cases ho : oracle imageData with
    | error e =>
      dsimp only
      refine ⟨by simp [addPage], by simp [addPage, take_append_self], ?_⟩
      intro processed hp
      cases hp
    | ok processed =>
      dsimp only
      refine ⟨?_, ?_, fun pr _ => rfl⟩
      · split <;>
        · rw [updateAt_length]
          simp [addPage]
      · split <;>
        · rw [show (addPage d).pages = d.pages ++ [freshPage d.objectCounter (d.objectCounter + 1)]
                from rfl,
              show (addPage d).currentPageIndex = d.pages.length from rfl,
              updateAt_snoc, take_append_self]

/-- Witness for C2 at a concrete overflowing placement on the default
document. -/
theorem overflow_pagination_witness :
    ((addText docW (S "hi") 0 900 {}).2 = docW.headerHeight + 20 ∧
      (addText docW (S "hi") 0 900 {}).1.pages =
        docW.pages ++ [textPageUpd (S "hi") 0 (docW.headerHeight + 20) {}
          (freshPage docW.objectCounter (docW.objectCounter + 1))]) ∧
    ((addImage docW (fun _ => .ok (S "QUJD")) (S "img") 0 900
        { width := 10, height := 50 }).1.pages.length = docW.pages.length + 1 ∧
      (addImage docW (fun _ => .ok (S "QUJD")) (S "img") 0 900
        { width := 10, height := 50 }).1.pages.take docW.pages.length = docW.pages ∧
      ∀ processed, (fun (_ : List Char) => Except.ok (ε := Unit) (S "QUJD")) (S "img") =
          Except.ok processed →
        (addImage docW (fun _ => .ok (S "QUJD")) (S "img") 0 900
          { width := 10, height := 50 }).2 = Except.ok (docW.headerHeight + 20)) :=
  ⟨overflow_pagination.1 docW (S "hi") 0 900 {} rfl
      (by norm_num [docW, newDoc, addPage, pageHeight, maxBandHeight]),
    overflow_pagination.2 docW (fun _ => .ok (S "QUJD")) (S "img") 0 900
      { width := 10, height := 50 } rfl
      (by norm_num [docW, newDoc, addPage, pageHeight, maxBandHeight])⟩

/-- C4: placement calls made while the header/footer guard is set never
change the page count — for any configuration, including clamped maximal
reserved heights — and hence the injection pass leaves the page count
unchanged. -/
theorem hf_injection_no_overflow :
    (∀ (d : Doc) (text : List Char) (x y : ℚ) (opts : TextOptions),
      d.isApplyingHeaderFooter = true →
      (addText d text x y opts).1.pages.length = d.pages.length) ∧
    (∀ (d : Doc) (oracle : List Char → Except Unit (List Char)) (imageData : List Char)
        (x y : ℚ) (opts : ImageOptions),
      d.isApplyingHeaderFooter = true →
      (addImage d oracle imageData x y opts).1.pages.length = d.pages.length) ∧
    (∀ d : Doc, (applyHF d).pages.length = d.pages.length) := by
  refine ⟨?_, ?_, fun d => (applyHF_props d).2.2.2.2.2.2.2.2.1⟩
  · intro d t x y o hg
    rw [addText_guard_doc d t x y o hg]
    dsimp only
    rw [updateAt_length]
  · intro d oracle img x y o hg
    unfold addImage
    dsimp only
    rw [if_neg (by simp [hg]), if_neg (by simp [hg])]
    cases ho : oracle img with
    | error e => rfl
    | ok processed =>
      dsimp only
      split <;>
      · rw [updateAt_length]

/-- Witness for C4 on a document with both reserved heights clamped to 200
and the guard set. -/
theorem hf_injection_no_overflow_witness :
    ((addText docG (S "h") 0 900 {}).1.pages.length = docG.pages.length) ∧
    ((addImage docG (fun _ => .error ()) (S "i") 0 900
        { width := 5, height := 900 }).1.pages.length = docG.pages.length) ∧
    ((applyHF docG).pages.length = docG.pages.length) :=
  ⟨hf_injection_no_overflow.1 docG (S "h") 0 900 {} rfl,
    hf_injection_no_overflow.2.1 docG (fun _ => .error ()) (S "i") 0 900
      { width := 5, height := 900 } rfl,
    hf_injection_no_overflow.2.2 docG⟩

/-- C6: an unreachable or undecodable image source rejects that single
`addImage` call; previously placed page content and the image registry are
unchanged by the failed call. -/
theorem image_failure_scoped (d : Doc) (oracle : List Char → Except Unit (List Char))
    (imageData : List Char) (x y : ℚ) (opts : ImageOptions) (e : Unit)
    (h : oracle imageData = Except.error e) :
    (addImage d oracle imageData x y opts).2 = Except.error e ∧
    (addImage d oracle imageData x y opts).1.images = d.images ∧
    (addImage d oracle imageData x y opts).1.pages.take d.pages.length = d.pages := by
  rw [addImage_err d oracle imageData x y opts e h]
  dsimp only
  refine ⟨rfl, ?_, ?_⟩
  · split <;> rfl
  · split
    · rw [show (addPage d).pages = d.pages ++ [freshPage d.objectCounter (d.objectCounter + 1)]
            from rfl,
          take_append_self]
    · exact List.take_length d.pages

/-- Witness for C6 with a concretely failing source. -/
theorem image_failure_scoped_witness :
    (addImage docW (fun _ => .error ()) (S "bad") 5 5 { width := 3, height := 4 }).2 =
      Except.error () ∧
    (addImage docW (fun _ => .error ()) (S "bad") 5 5
      { width := 3, height := 4 }).1.images = docW.images ∧
    (addImage docW (fun _ => .error ()) (S "bad") 5 5
      { width := 3, height := 4 }).1.pages.take docW.pages.length = docW.pages :=
  image_failure_scoped docW (fun _ => .error ()) (S "bad") 5 5 { width := 3, height := 4 } () rfl

/-! ## Color lemmas (C8) -/

theorem hexVal_le (c : Char) (h : isHexDigit c = true) : hexVal c ≤ 15 := by
  unfold isHexDigit at h
  unfold hexVal
  simp only [Bool.or_eq_true, Bool.and_eq_true, decide_eq_true_eq] at h
  split_ifs <;> omega

theorem matchesLoose_eq_sixHex (s : List Char) :
    matchesLooseHexPattern s = sixHex (hexBody s) := by
  unfold matchesLooseHexPattern hexBody
  cases s with
  | nil => rfl
  | cons c r => by_cases hc : c = '#' <;> simp [hc, sixHex]

theorem sixHex_shape (l : List Char) (h : sixHex l = true) :
    ∃ c1 c2 c3 c4 c5 c6, l = [c1, c2, c3, c4, c5, c6] ∧
      isHexDigit c1 = true ∧ isHexDigit c2 = true ∧ isHexDigit c3 = true ∧
      isHexDigit c4 = true ∧ isHexDigit c5 = true ∧ isHexDigit c6 = true := by
  rcases l with _ | ⟨c1, _ | ⟨c2, _ | ⟨c3, _ | ⟨c4, _ | ⟨c5, _ | ⟨c6, _ | ⟨c7, l8⟩⟩⟩⟩⟩⟩⟩
  · simp [sixHex] at h
  · simp [sixHex] at h
  · simp [sixHex] at h
  · simp [sixHex] at h
  · simp [sixHex] at h
  · simp [sixHex] at h
  · simp only [sixHex, Bool.and_eq_true] at h
    exact ⟨c1, c2, c3, c4, c5, c6, rfl,
      h.1.1.1.1.1, h.1.1.1.1.2, h.1.1.1.2, h.1.1.2, h.1.2, h.2⟩
  · simp [sixHex] at h

/-- C8 (amended): strings matching the pattern with the leading `#` optional
decode to the three capture bytes divided by 255, each channel in `[0, 1]`;
every other string silently decodes to black. -/
theorem hexToRgb_decode (s : List Char) :
    (matchesLooseHexPattern s = true →
      ∃ r g b : Nat, hexCaptures s = some (r, g, b) ∧ r ≤ 255 ∧ g ≤ 255 ∧ b ≤ 255 ∧
        hexToRgb s = { r := (r : ℚ) / 255, g := (g : ℚ) / 255, b := (b : ℚ) / 255 } ∧
        0 ≤ (r : ℚ) / 255 ∧ (r : ℚ) / 255 ≤ 1 ∧
        0 ≤ (g : ℚ) / 255 ∧ (g : ℚ) / 255 ≤ 1 ∧
        0 ≤ (b : ℚ) / 255 ∧ (b : ℚ) / 255 ≤ 1) ∧
    (matchesLooseHexPattern s = false → hexToRgb s = { r := 0, g := 0, b := 0 }) := by
  constructor
  · intro h
    rw [matchesLoose_eq_sixHex] at h
    obtain ⟨c1, c2, c3, c4, c5, c6, hsh, h1, h2, h3, h4, h5, h6⟩ := sixHex_shape _ h
    have hcap : hexCaptures s =
        some (hexVal c1 * 16 + hexVal c2, hexVal c3 * 16 + hexVal c4,
          hexVal c5 * 16 + hexVal c6) := by
      unfold hexCaptures
      rw [hsh]
      dsimp only
      rw [if_pos (by simp [h1, h2, h3, h4, h5, h6])]
    have hrgb : hexToRgb s =
        { r := ((hexVal c1 * 16 + hexVal c2 : Nat) : ℚ) / 255,
          g := ((hexVal c3 * 16 + hexVal c4 : Nat) : ℚ) / 255,
          b := ((hexVal c5 * 16 + hexVal c6 : Nat) : ℚ) / 255 } := by
      unfold hexToRgb
      rw [hcap]
    have b1 := hexVal_le c1 h1
    have b2 := hexVal_le c2 h2
    have b3 := hexVal_le c3 h3
    have b4 := hexVal_le c4 h4
    have b5 := hexVal_le c5 h5
    have b6 := hexVal_le c6 h6
    refine ⟨hexVal c1 * 16 + hexVal c2, hexVal c3 * 16 + hexVal c4,
      hexVal c5 * 16 + hexVal c6, hcap, by omega, by omega, by omega, hrgb,
      by positivity, ?_, by positivity, ?_, by positivity, ?_⟩
    · rw [div_le_one (by norm_num)]
      exact_mod_cast show ((hexVal c1 * 16 + hexVal c2 : Nat) : ℚ) ≤ ((255 : Nat) : ℚ) from
        Nat.cast_le.mpr (by omega)
    · rw [div_le_one (by norm_num)]
      exact_mod_cast show ((hexVal c3 * 16 + hexVal c4 : Nat) : ℚ) ≤ ((255 : Nat) : ℚ) from
        Nat.cast_le.mpr (by omega)
    · rw [div_le_one (by norm_num)]
      exact_mod_cast show ((hexVal c5 * 16 + hexVal c6 : Nat) : ℚ) ≤ ((255 : Nat) : ℚ) from
        Nat.cast_le.mpr (by omega)
  · intro h
    rw [matchesLoose_eq_sixHex] at h
    cases hx : hexCaptures s with
    | some v =>
      exfalso
      obtain ⟨c1, c2, c3, c4, c5, c6, hsh, h1, h2, h3, h4, h5, h6⟩ :=
        sixHex_shape (hexBody s) (by
          unfold hexCaptures at hx
          rcases hb : hexBody s with _ | ⟨d1, _ | ⟨d2, _ | ⟨d3, _ | ⟨d4, _ | ⟨d5,
              _ | ⟨d6, _ | ⟨d7, l8⟩⟩⟩⟩⟩⟩⟩ <;> rw [hb] at hx <;>
            first
              | cases hx
              | (dsimp only at hx
                 unfold sixHex
                 dsimp only
                 by_cases hd : (isHexDigit d1 && isHexDigit d2 && isHexDigit d3 &&
                     isHexDigit d4 && isHexDigit d5 && isHexDigit d6) = true
                 · exact hd
                 · rw [if_neg hd] at hx; cases hx))
      rw [hsh] at h
      simp [sixHex, h1, h2, h3, h4, h5, h6] at h
    | none =>
      unfold hexToRgb
      rw [hx]

/-- Witness for the amended C8 at concrete matching and non-matching
inputs. -/
theorem hexToRgb_decode_witness :
    (∃ r g b : Nat, hexCaptures (S "#102030") = some (r, g, b) ∧
      r ≤ 255 ∧ g ≤ 255 ∧ b ≤ 255 ∧
      hexToRgb (S "#102030") =
        { r := (r : ℚ) / 255, g := (g : ℚ) / 255, b := (b : ℚ) / 255 } ∧
      0 ≤ (r : ℚ) / 255 ∧ (r : ℚ) / 255 ≤ 1 ∧
      0 ≤ (g : ℚ) / 255 ∧ (g : ℚ) / 255 ≤ 1 ∧
      0 ≤ (b : ℚ) / 255 ∧ (b : ℚ) / 255 ≤ 1) ∧
    hexToRgb (S "not a color") = { r := 0, g := 0, b := 0 } :=
  ⟨(hexToRgb_decode (S "#102030")).1 (by decide),
    (hexToRgb_decode (S "not a color")).2 (by decide)⟩

/-- C8 counterexample: `"aabbcc"` does not match the literal `#RRGGBB`
pattern (no `#`), yet `hexToRgb` decodes it to a non-black color instead of
returning black. -/
theorem hex_pattern_counterexample :
    matchesHashHexPattern (S "aabbcc") = false ∧
    hexToRgb (S "aabbcc") ≠ { r := 0, g := 0, b := 0 } := by
  refine ⟨by decide, fun h => ?_⟩
  have hr : (hexToRgb (S "aabbcc")).r = (170 : ℚ) / 255 := by
    have hc : hexCaptures (S "aabbcc") = some (170, 187, 204) := by decide
    unfold hexToRgb
    rw [hc]
    norm_num
  rw [h] at hr
  norm_num at hr

/-! ## Font resolution (C5) -/

/-- A placement call that does not overflow only updates the current page. -/
theorem addText_no_overflow (d : Doc) (t : List Char) (x y : ℚ) (o : TextOptions)
    (h : ¬(d.isApplyingHeaderFooter = false ∧ y + o.size.getD 12 > pageHeight - d.footerHeight)) :
    addText d t x y o =
      ({ d with pages := updateAt d.pages d.currentPageIndex (textPageUpd t x y o) }, y) := by
  unfold addText
  dsimp only
  rw [if_neg h, if_neg h]

/-- C5 evaluated: the resolution local (line 181) does default the unmapped
family `arial` to Helvetica, but that value is dead — the call registers the
resource name `F0` (from `indexOf = -1`), and the serializer's positional
recovery maps `F0` to `/BaseFont /undefined`, which is not the name of any
standard font.  A mapped key (`times`, bold) round-trips correctly to
`/BaseFont /Times-Bold`. -/
theorem font_fallback_eval :
    resolvedPdfFontName (S "arial") Style.normal = S "Helvetica" ∧
    fontResourceNameFor (S "arial") Style.normal = S "F0" ∧
    ((addText docW (S "hi") 10 10 { font := some (S "arial") }).1.pages.getD 0
        dummyPage).resources.fonts = [S "F0"] ∧
    fontResEntry (S "F0") = S "/F0 << /Type /Font /Subtype /Type1 /BaseFont /undefined >> " ∧
    (∀ kv ∈ standardFonts, kv.2 ≠ S "undefined") ∧
    S "undefined" ≠ S "Helvetica" ∧
    fontResourceNameFor (S "times") Style.bold = S "F6" ∧
    fontResEntry (S "F6") = S "/F6 << /Type /Font /Subtype /Type1 /BaseFont /Times-Bold >> " := by
  refine ⟨by decide, by decide, ?_, by decide, by decide, by decide, by decide, by decide⟩
  rw [addText_no_overflow docW (S "hi") 10 10 { font := some (S "arial") }
      (by
        intro hc
        have h2 := hc.2
        norm_num [docW, newDoc, addPage, pageHeight, maxBandHeight] at h2)]
  decide

/-! ## Page counting (C3) -/

theorem buildPdfData_d2 (d : Doc) :
    (buildPdfData d).d2 = { applyHF d with objectCounter := (applyHF d).objectCounter + 2 } :=
  rfl

theorem buildPdfData_objects (d : Doc) :
    (buildPdfData d).objects =
      serializedObjects (buildPdfData d).d2 ((applyHF d).objectCounter)
        ((applyHF d).objectCounter + 1) :=
  rfl

theorem buildPdfData_rootId (d : Doc) :
    (buildPdfData d).pagesRootId = (applyHF d).objectCounter + 1 :=
  rfl

theorem buildPdfData_catalogId (d : Doc) :
    (buildPdfData d).catalogId = (applyHF d).objectCounter :=
  rfl

theorem iterate_addPage (cfg : PdfConfig) (n : Nat) :
    (addPage^[n] (newDoc cfg)).pages.length = n + 1 ∧
    (addPage^[n] (newDoc cfg)).images = [] := by
  induction n with
  | zero => exact ⟨rfl, rfl⟩
  | succ k ih =>
    rw [Function.iterate_succ_apply']
    refine ⟨?_, ?_⟩
    · rw [show (addPage (addPage^[k] (newDoc cfg))).pages =
            (addPage^[k] (newDoc cfg)).pages ++ [freshPage _ _] from rfl]
      rw [List.length_append, ih.1]
      rfl
    · exact ih.2

theorem isPage_page (rootId : Nat) (res : List Char) (cid : Nat) :
    isPageObjContent (pageObjContent rootId res cid) = true := by
  unfold isPageObjContent pageObjContent
  simp only [List.append_assoc]
  exact isLead_mono _ _ _ (by decide)

theorem isPage_catalog (rootId : Nat) :
    isPageObjContent (catalogContent rootId) = false := by
  unfold isPageObjContent catalogContent
  simp only [List.append_assoc]
  exact isLead_append_false _ _ _ (by decide)

theorem isPage_root (pages : List Page) :
    isPageObjContent (pagesRootContent pages) = false := by
  unfold isPageObjContent pagesRootContent
  simp only [List.append_assoc]
  exact isLead_append_false _ _ _ (by decide)

theorem isPage_stream (sc : List Char) :
    isPageObjContent (streamObjContent sc) = false := by
  unfold isPageObjContent streamObjContent
  simp only [List.append_assoc]
  exact isLead_append_false _ _ _ (by decide)

theorem isPage_image (img : ImageRec) :
    isPageObjContent (imageObjContent img) = false := by
  unfold isPageObjContent imageObjContent
  simp only [List.append_assoc]
  exact isLead_append_false _ _ _ (by decide)

theorem countP_pagePairs (ps : List Page) (rootId : Nat)
    (images : List (List Char × ImageRec)) :
    (ps.flatMap (fun p =>
      [(p.id, pageObjContent rootId (resourcesDict images p) p.contentId),
       (p.contentId, streamObjContent (joinSep (S "\n") p.content))])).countP
        (fun o => isPageObjContent o.2) = ps.length := by
  induction ps with
  | nil => rfl
  | cons p ps ih =>
    simp [List.flatMap_cons, List.countP_append, List.countP_cons, List.countP_nil, ih,
      isPage_page, isPage_stream, List.length_cons]

/-- C3: with only `startPage` (`addPage`) calls after construction, the
serialized page count is `1 + number of calls`: the page list length, the
`/Count` field of the emitted page-tree root, and the number of emitted
page objects all equal `n + 1`. -/
theorem page_count (cfg : PdfConfig) (n : Nat) :
    (buildPdfData (addPage^[n] (newDoc cfg))).d2.pages.length = n + 1 ∧
    (buildPdfData (addPage^[n] (newDoc cfg))).objects.getD 1 (0, []) =
      ((buildPdfData (addPage^[n] (newDoc cfg))).pagesRootId,
        S "<< /Type /Pages /Kids [" ++
          kidsStr (buildPdfData (addPage^[n] (newDoc cfg))).d2.pages ++
        S "] /Count " ++ N (n + 1) ++ S " >>") ∧
    (buildPdfData (addPage^[n] (newDoc cfg))).objects.countP
      (fun o => isPageObjContent o.2) = n + 1 := by
  obtain ⟨hlen, himg⟩ := iterate_addPage cfg n
  set d := addPage^[n] (newDoc cfg) with hd
  have hd2p : (buildPdfData d).d2.pages = (applyHF d).pages := by rw [buildPdfData_d2]
  have hd2i : (buildPdfData d).d2.images = (applyHF d).images := by rw [buildPdfData_d2]
  have hplen : (buildPdfData d).d2.pages.length = n + 1 := by
    rw [hd2p, (applyHF_props d).2.2.2.2.2.2.2.2.1, hlen]
  have himg2 : (buildPdfData d).d2.images = [] := by
    rw [hd2i, (applyHF_props d).2.1, himg]
  refine ⟨hplen, ?_, ?_⟩
  · rw [show (buildPdfData d).objects.getD 1 (0, []) =
        ((buildPdfData d).pagesRootId, pagesRootContent (buildPdfData d).d2.pages) from rfl]
    unfold pagesRootContent
    rw [hplen]
  · rw [buildPdfData_objects]
    unfold serializedObjects
    rw [List.countP_append, List.countP_append]
    rw [show ([((applyHF d).objectCounter, catalogContent ((applyHF d).objectCounter + 1)),
          ((applyHF d).objectCounter + 1, pagesRootContent (buildPdfData d).d2.pages)].countP
            (fun o => isPageObjContent o.2)) = 0 from by
        simp [List.countP_cons, isPage_catalog, isPage_root]]
    rw [countP_pagePairs, himg2]
    rw [hplen]
    simp

/-! ## Default footer text (C7, C10) -/

theorem footerTextFor_on (t : List Char) (n : Nat) :
    footerTextFor t true n =
      (if t = [] then S "Page " ++ N n else t ++ S " - Page " ++ N n) := by
  unfold footerTextFor
  by_cases ht : t = [] <;> simp [ht]

theorem footerTextFor_on_ne (t : List Char) (n : Nat) : footerTextFor t true n ≠ [] := by
  rw [footerTextFor_on]
  by_cases ht : t = [] <;> simp [ht, S]

/-- Shared between C7 and C10: when only a default footer with page-number
display on is configured, each page `i` (0-based) receives exactly one
appended fragment whose text is `Page (i+1)` — or the literal text suffixed
with `" - Page (i+1)"` — rendered at size 10 with resource name `F1`. -/
theorem applyHF_footer_content (d : Doc) (fc : DefaultFooterConfig) (i : Nat)
    (hi : i < d.pages.length)
    (hf : d.config.defaultFooter = some fc)
    (hh : d.config.defaultHeader = none)
    (hpn : fc.showPageNumbers.getD true = true) :
    ((applyHF d).pages.getD i dummyPage).content =
      (d.pages.getD i dummyPage).content ++
        [textFragment (S "F1") 10 (hexToRgb (fc.color.getD (S "#000000")))
          (alignAdjust (bandX (fc.align.getD Align.center)) (fc.align.getD Align.center)
            (if fc.text.getD [] = [] then S "Page " ++ N (i + 1)
             else fc.text.getD [] ++ S " - Page " ++ N (i + 1)).length 10)
          (pageHeight - 820)
          (if fc.text.getD [] = [] then S "Page " ++ N (i + 1)
           else fc.text.getD [] ++ S " - Page " ++ N (i + 1))] := by
  rw [applyHF_pages_getD d i hi]
  unfold hfPageTransform
  simp only [hh, hf]
  try dsimp only
  rw [hpn, if_pos (footerTextFor_on_ne (fc.text.getD []) (i + 1))]
  unfold textPageUpd
  try dsimp only
  rw [footerTextFor_on]
  simp only [Option.getD_some, Option.getD_none]
  rw [show fontResourceNameFor (S "helvetica") Style.normal = S "F1" from by decide]

/-- C7: a default footer with `showPageNumbers: true` and no literal text
renders footer text exactly `Page p` on every page `p`, independent of
document content; with literal text configured it renders the text suffixed
with `" - Page p"`. -/
theorem default_footer_page_numbers (d : Doc) (fc : DefaultFooterConfig) (i : Nat)
    (hi : i < d.pages.length)
    (hf : d.config.defaultFooter = some fc)
    (hh : d.config.defaultHeader = none)
    (hpn : fc.showPageNumbers = some true) :
    ((applyHF d).pages.getD i dummyPage).content =
      (d.pages.getD i dummyPage).content ++
        [textFragment (S "F1") 10 (hexToRgb (fc.color.getD (S "#000000")))
          (alignAdjust (bandX (fc.align.getD Align.center)) (fc.align.getD Align.center)
            (if fc.text.getD [] = [] then S "Page " ++ N (i + 1)
             else fc.text.getD [] ++ S " - Page " ++ N (i + 1)).length 10)
          (pageHeight - 820)
          (if fc.text.getD [] = [] then S "Page " ++ N (i + 1)
           else fc.text.getD [] ++ S " - Page " ++ N (i + 1))] :=
  applyHF_footer_content d fc i hi hf hh (by rw [hpn]; rfl)

/-- The footer configuration of the concrete document `docF`. -/
theorem default_footer_page_numbers_witness :
    ((applyHF docF).pages.getD 0 dummyPage).content =
      (docF.pages.getD 0 dummyPage).content ++
        [textFragment (S "F1") 10
          (hexToRgb ((({ showPageNumbers := some true } : DefaultFooterConfig)).color.getD
            (S "#000000")))
          (alignAdjust (bandX Align.center) Align.center (S "Page 1").length 10)
          (pageHeight - 820) (S "Page 1")] := by
  have h := default_footer_page_numbers docF { showPageNumbers := some true } 0
    (by decide) rfl rfl rfl
  simpa using h

/-- C10: when a default footer is configured without `showPageNumbers`,
page-number display defaults to on: every page receives `Page p` (or
`<text> - Page p` when literal text is configured). -/
theorem footer_page_numbers_default_on (d : Doc) (fc : DefaultFooterConfig) (i : Nat)
    (hi : i < d.pages.length)
    (hf : d.config.defaultFooter = some fc)
    (hh : d.config.defaultHeader = none)
    (hpn : fc.showPageNumbers = none) :
    ((applyHF d).pages.getD i dummyPage).content =
      (d.pages.getD i dummyPage).content ++
        [textFragment (S "F1") 10 (hexToRgb (fc.color.getD (S "#000000")))
          (alignAdjust (bandX (fc.align.getD Align.center)) (fc.align.getD Align.center)
            (if fc.text.getD [] = [] then S "Page " ++ N (i + 1)
             else fc.text.getD [] ++ S " - Page " ++ N (i + 1)).length 10)
          (pageHeight - 820)
          (if fc.text.getD [] = [] then S "Page " ++ N (i + 1)
           else fc.text.getD [] ++ S " - Page " ++ N (i + 1))] :=
  applyHF_footer_content d fc i hi hf hh (by rw [hpn]; rfl)

/-- Witness for C10: literal text `Doc`, no `showPageNumbers` setting. -/
theorem footer_page_numbers_default_on_witness :
    ((applyHF docT).pages.getD 0 dummyPage).content =
      (docT.pages.getD 0 dummyPage).content ++
        [textFragment (S "F1") 10
          (hexToRgb ((({ text := some (S "Doc") } : DefaultFooterConfig)).color.getD
            (S "#000000")))
          (alignAdjust (bandX Align.center) Align.center (S "Doc - Page 1").length 10)
          (pageHeight - 820) (S "Doc - Page 1")] := by
  have h := footer_page_numbers_default_on docT { text := some (S "Doc") } 0
    (by decide) rfl rfl rfl
  simpa using h

/-! ## Allocator invariant (C9) -/

theorem pageIdsOf_addPage (d : Doc) :
    pageIdsOf (addPage d) = pageIdsOf d ++ [d.objectCounter, d.objectCounter + 1] := by
  simp [pageIdsOf, addPage, freshPage, List.flatMap_append]

theorem allocInv_updatePages (d : Doc) (i : Nat) (f : Page → Page)
    (hf : ∀ p, (f p).id = p.id ∧ (f p).contentId = p.contentId)
    (h : allocInv d) : allocInv { d with pages := updateAt d.pages i f } := by
  obtain ⟨hpp, hpi, hnd, hbd, hhd, hc1⟩ := h
  have hids : pageIdsOf { d with pages := updateAt d.pages i f } = pageIdsOf d := by
    unfold pageIdsOf
    exact flatMap_updateAt_const _ _ _ _
      (fun p => by rw [show [(f p).id, (f p).contentId] = [p.id, p.contentId] from
        by rw [(hf p).1, (hf p).2]])
  have hsi : structIds { d with pages := updateAt d.pages i f } = structIds d := by
    unfold structIds
    rw [hids]
    rfl
  exact ⟨by rw [hids]; exact hpp, hpi, by rw [hsi]; exact hnd,
    fun k hk => by rw [hsi] at hk; exact hbd k hk, by rw [hids]; exact hhd, hc1⟩

theorem allocInv_addPage (d : Doc) (h : allocInv d) : allocInv (addPage d) := by
  obtain ⟨hpp, hpi, hnd, hbd, hhd, hc1⟩ := h
  have hpid := pageIdsOf_addPage d
  have hperm : List.Perm (structIds (addPage d))
      (structIds d ++ [d.objectCounter, d.objectCounter + 1]) := by
    unfold structIds
    rw [hpid, show imageIdsOf (addPage d) = imageIdsOf d from rfl, List.append_assoc,
      List.append_assoc]
    exact List.Perm.append_left _ List.perm_append_comm
  refine ⟨?_, hpi, ?_, ?_, ?_, ?_⟩
  · rw [hpid, List.pairwise_append]
    refine ⟨hpp, by simp, ?_⟩
    intro a ha b hb
    have h1 := (hbd a (List.mem_append_left _ ha)).2
    simp only [List.mem_cons, List.mem_singleton, List.not_mem_nil, or_false] at hb
    rcases hb with hb | hb <;> omega
  · rw [hperm.nodup_iff, List.nodup_append]
    refine ⟨hnd, by simp, ?_⟩
    intro a ha hmem
    have h1 := (hbd a ha).2
    simp only [List.mem_cons, List.mem_singleton, List.not_mem_nil, or_false] at hmem
    rcases hmem with hm | hm <;> omega
  · intro k hk
    have hk2 := hperm.mem_iff.mp hk
    rw [List.mem_append] at hk2
    show 1 ≤ k ∧ k < d.objectCounter + 2
    rcases hk2 with hk2 | hk2
    · have := hbd k hk2
      omega
    · simp only [List.mem_cons, List.mem_singleton, List.not_mem_nil, or_false] at hk2
      rcases hk2 with hk2 | hk2 <;> omega
  · rw [hpid, List.head?_append, hhd]
    rfl
  · show 1 ≤ d.objectCounter + 2
    omega

theorem allocInv_newDoc (cfg : PdfConfig) : allocInv (newDoc cfg) := by
  have h1 : pageIdsOf (newDoc cfg) = [1, 2] := rfl
  have h2 : imageIdsOf (newDoc cfg) = [] := rfl
  have h3 : structIds (newDoc cfg) = [1, 2] := rfl
  have h4 : (newDoc cfg).objectCounter = 3 := rfl
  refine ⟨by rw [h1]; decide, by rw [h2]; decide, by rw [h3]; decide, ?_, rfl,
    by rw [h4]; decide⟩
  intro k hk
  rw [h3] at hk
  rw [h4]
  simp only [List.mem_cons, List.mem_singleton, List.not_mem_nil, or_false] at hk
  rcases hk with hk | hk <;> omega

theorem allocInv_addImageEntry (d : Doc) (key : List Char) (w hgt : ℚ) (dat : List Char)
    (h : allocInv d) :
    allocInv { d with
      images := d.images ++
        [(key, { id := d.objectCounter, width := w, height := hgt, data := dat })],
      objectCounter := d.objectCounter + 1 } := by
  obtain ⟨hpp, hpi, hnd, hbd, hhd, hc1⟩ := h
  have him : imageIdsOf { d with
      images := d.images ++
        [(key, { id := d.objectCounter, width := w, height := hgt, data := dat })],
      objectCounter := d.objectCounter + 1 } = imageIdsOf d ++ [d.objectCounter] := by
    simp [imageIdsOf]
  have hsi : structIds { d with
      images := d.images ++
        [(key, { id := d.objectCounter, width := w, height := hgt, data := dat })],
      objectCounter := d.objectCounter + 1 } = structIds d ++ [d.objectCounter] := by
    unfold structIds
    rw [him, show pageIdsOf { d with
      images := d.images ++
        [(key, { id := d.objectCounter, width := w, height := hgt, data := dat })],
      objectCounter := d.objectCounter + 1 } = pageIdsOf d from rfl, ← List.append_assoc]
  refine ⟨hpp, ?_, ?_, ?_, hhd, ?_⟩
  · rw [him, List.pairwise_append]
    refine ⟨hpi, by simp, ?_⟩
    intro a ha b hb
    have h1 := (hbd a (List.mem_append_right _ ha)).2
    simp only [List.mem_singleton] at hb
    omega
  · rw [hsi, List.nodup_append]
    refine ⟨hnd, by simp, ?_⟩
    intro a ha hmem
    have h1 := (hbd a ha).2
    simp only [List.mem_singleton] at hmem
    omega
  · intro k hk
    rw [hsi, List.mem_append] at hk
    show 1 ≤ k ∧ k < d.objectCounter + 1
    rcases hk with hk | hk
    · have := hbd k hk
      omega
    · simp only [List.mem_singleton] at hk
      omega
  · show 1 ≤ d.objectCounter + 1
    omega

theorem allocInv_applyOp (d : Doc) (op : ClientOp) (h : allocInv d) :
    allocInv (applyOp d op) := by
  cases op with
  | page => exact allocInv_addPage d h
  | text t x y o =>
    show allocInv (addText d t x y o).1
    unfold addText
    dsimp only
    by_cases hn : d.isApplyingHeaderFooter = false ∧
        y + o.size.getD 12 > pageHeight - d.footerHeight
    · rw [if_pos hn]
      exact allocInv_updatePages (addPage d) _ _ (fun p => textPageUpd_ids t x _ o p)
        (allocInv_addPage d h)
    · rw [if_neg hn]
      exact allocInv_updatePages d _ _ (fun p => textPageUpd_ids t x _ o p) h
  | image res src x y o =>
    show allocInv (addImage d (fun _ => res) src x y o).1
    unfold addImage
    dsimp only
    by_cases hn : d.isApplyingHeaderFooter = false ∧
        y + o.height > pageHeight - d.footerHeight
    · rw [if_pos hn]
      cases res with
      | error e => exact allocInv_addPage d h
      | ok processedData =>
        dsimp only
        split
        · exact allocInv_updatePages _ _ _ (fun p => ⟨rfl, rfl⟩)
            (allocInv_addImageEntry (addPage d) _ o.width o.height _ (allocInv_addPage d h))
        · exact allocInv_updatePages _ _ _ (fun p => ⟨rfl, rfl⟩) (allocInv_addPage d h)
    · rw [if_neg hn]
      cases res with
      | error e => exact h
      | ok processedData =>
        dsimp only
        split
        · exact allocInv_updatePages _ _ _ (fun p => ⟨rfl, rfl⟩)
            (allocInv_addImageEntry d _ o.width o.height _ h)
        · exact allocInv_updatePages _ _ _ (fun p => ⟨rfl, rfl⟩) h

theorem allocInv_runOps (cfg : PdfConfig) (ops : List ClientOp) :
    allocInv (runOps (newDoc cfg) ops) := by
  unfold runOps
  have : ∀ (l : List ClientOp) (d : Doc), allocInv d → allocInv (l.foldl applyOp d) := by
    intro l
    induction l with
    | nil => exact fun d h => h
    | cons op ops ih =>
      intro d h
      exact ih _ (allocInv_applyOp d op h)
  exact this ops (newDoc cfg) (allocInv_newDoc cfg)

theorem allocInv_applyHF (d : Doc) (h : allocInv d) : allocInv (applyHF d) := by
  obtain ⟨hpp, hpi, hnd, hbd, hhd, hc1⟩ := h
  have props := applyHF_props d
  have hp : pageIdsOf (applyHF d) = pageIdsOf d := props.2.2.2.2.2.2.2.2.2
  have hi : imageIdsOf (applyHF d) = imageIdsOf d := by
    unfold imageIdsOf
    rw [props.2.1]
  have hs : structIds (applyHF d) = structIds d := by
    unfold structIds
    rw [hp, hi]
  have hc : (applyHF d).objectCounter = d.objectCounter := props.2.2.2.2.2.2.2.1
  exact ⟨by rw [hp]; exact hpp, by rw [hi]; exact hpi, by rw [hs]; exact hnd,
    fun k hk => by rw [hs] at hk; rw [hc]; exact hbd k hk,
    by rw [hp]; exact hhd, by rw [hc]; exact hc1⟩

/-- C9: the allocator issues strictly increasing integer ids starting at 1
with no duplicates and no reuse across all structural entities — pages and
content streams (in allocation order), images (in registration order), and
the catalog and page-tree root allocated during serialization. -/
theorem allocator_ids (cfg : PdfConfig) (ops : List ClientOp) :
    List.Pairwise (· < ·) (pageIdsOf (runOps (newDoc cfg) ops)) ∧
    List.Pairwise (· < ·) (imageIdsOf (runOps (newDoc cfg) ops)) ∧
    (pageIdsOf (runOps (newDoc cfg) ops)).head? = some 1 ∧
    (structIds (buildPdfData (runOps (newDoc cfg) ops)).d2 ++
      [(buildPdfData (runOps (newDoc cfg) ops)).catalogId,
       (buildPdfData (runOps (newDoc cfg) ops)).pagesRootId]).Nodup ∧
    (∀ k ∈ structIds (buildPdfData (runOps (newDoc cfg) ops)).d2 ++
        [(buildPdfData (runOps (newDoc cfg) ops)).catalogId,
         (buildPdfData (runOps (newDoc cfg) ops)).pagesRootId],
      1 ≤ k ∧ k < (buildPdfData (runOps (newDoc cfg) ops)).d2.objectCounter) ∧
    (buildPdfData (runOps (newDoc cfg) ops)).pagesRootId =
      (buildPdfData (runOps (newDoc cfg) ops)).catalogId + 1 ∧
    (buildPdfData (runOps (newDoc cfg) ops)).d2.objectCounter =
      (buildPdfData (runOps (newDoc cfg) ops)).catalogId + 2 := by
  have hInv : allocInv (runOps (newDoc cfg) ops) := allocInv_runOps cfg ops
  have hInv2 : allocInv (applyHF (runOps (newDoc cfg) ops)) :=
    allocInv_applyHF _ hInv
  obtain ⟨hpp, hpi, _, _, hhd, _⟩ := hInv
  obtain ⟨_, _, hnd2, hbd2, _, hc12⟩ := hInv2
  have hs2 : structIds (buildPdfData (runOps (newDoc cfg) ops)).d2 =
      structIds (applyHF (runOps (newDoc cfg) ops)) := rfl
  refine ⟨hpp, hpi, hhd, ?_, ?_, rfl, rfl⟩
  · rw [hs2, buildPdfData_catalogId, buildPdfData_rootId, List.nodup_append]
    refine ⟨hnd2, by simp, ?_⟩
    intro a ha hmem
    have h1 := (hbd2 a ha).2
    simp only [List.mem_cons, List.mem_singleton, List.not_mem_nil, or_false] at hmem
    rcases hmem with hm | hm <;> omega
  · intro k hk
    rw [hs2, buildPdfData_catalogId, buildPdfData_rootId, List.mem_append] at hk
    show 1 ≤ k ∧ k < (applyHF (runOps (newDoc cfg) ops)).objectCounter + 2
    rcases hk with hk | hk
    · have := hbd2 k hk
      omega
    · simp only [List.mem_cons, List.mem_singleton, List.not_mem_nil, or_false] at hk
      rcases hk with hk | hk <;> omega

end PdfSpec

